import Mathlib

set_option maxHeartbeats 1000000
set_option maxRecDepth 4000

/-!
Shallow embedding of the tsuru quote-feed program (`src/main.rs`).

The program decodes market-quote records out of captured network frames and
re-emits them in ascending order of their embedded accept time, using one of
two interchangeable buffering strategies (`with_vec` / `with_heap`).

Modelling conventions:
* timestamps (`chrono::DateTime<Utc>`) are microseconds since the Unix epoch, as `Int`;
* byte strings are `List Nat` (each entry one byte, `< 256` where relevant);
* Rust `Result` is `Except String`, and a Rust panic is the extra outcome
  `POr.panicked`, so fallible code lives in `DecodeM α = POr (Except String α)`;
* the reorder strategies consume the stream of successfully decoded quotes
  (the `if let Some(Ok(q))` filter of the ingestion loops).
-/

/-- MAX_DELAY (main.rs line 28): `TimeDelta::seconds(3)`, here in microseconds. -/
def MAX_DELAY : Int := 3000000

/-- Quote record decoded from one frame (main.rs lines 74..102).
`issue_code` is the 12-element `char` array, as Unicode scalar values. -/
structure QuotePacket where
  packet_time : Int
  accept_time : Int
  issue_code : List Nat
  bid_price_1 : Nat
  bid_price_2 : Nat
  bid_price_3 : Nat
  bid_price_4 : Nat
  bid_price_5 : Nat
  ask_price_1 : Nat
  ask_price_2 : Nat
  ask_price_3 : Nat
  ask_price_4 : Nat
  ask_price_5 : Nat
  bid_quantity_1 : Nat
  bid_quantity_2 : Nat
  bid_quantity_3 : Nat
  bid_quantity_4 : Nat
  bid_quantity_5 : Nat
  ask_quantity_1 : Nat
  ask_quantity_2 : Nat
  ask_quantity_3 : Nat
  ask_quantity_4 : Nat
  ask_quantity_5 : Nat
deriving Repr, DecidableEq

/-- Flush phase of `with_vec` (main.rs lines 279..286): `window.drain(..pp)` where
`pp = partition_point (accept_time + MAX_DELAY < q.accept_time)`.  The window is
always sorted by `accept_time` (invariant proved below), so the binary-search
`partition_point` coincides with the length of the satisfying prefix; the drain
is therefore modelled by `takeWhile`/`dropWhile`.  Returns (flushed, kept). -/
def vecFlush (w : List QuotePacket) (q : QuotePacket) :
    List QuotePacket × List QuotePacket :=
  (w.takeWhile fun e => decide (e.accept_time + MAX_DELAY < q.accept_time),
   w.dropWhile fun e => decide (e.accept_time + MAX_DELAY < q.accept_time))

/-- Insert phase of `with_vec` (main.rs lines 288..292): insert at
`partition_point (accept_time <= q.accept_time)`, i.e. after every buffered
entry whose accept time is `<=` the incoming one (modelled with `takeWhile`
on the sorted window, as above). -/
def vecInsert (w : List QuotePacket) (q : QuotePacket) : List QuotePacket :=
  (w.takeWhile fun e => decide (e.accept_time ≤ q.accept_time)) ++
    q :: (w.dropWhile fun e => decide (e.accept_time ≤ q.accept_time))

/-- The `with_vec` ingestion loop (main.rs lines 274..300) over the decoded
quote stream: each quote first flushes, then is inserted; on exhaustion the
remaining window is printed front to back.  Result = emitted lines in order. -/
def vecRun (w : List QuotePacket) : List QuotePacket → List QuotePacket
  | [] => w
  | q :: qs => (vecFlush w q).1 ++ vecRun (vecInsert (vecFlush w q).2 q) qs

/-- `with_vec` strategy started from the empty window. -/
def with_vec (qs : List QuotePacket) : List QuotePacket := vecRun [] qs

/-- Window state of the `with_vec` loop after consuming the given quotes. -/
def vecWindow (w : List QuotePacket) : List QuotePacket → List QuotePacket
  | [] => w
  | q :: qs => vecWindow (vecInsert (vecFlush w q).2 q) qs

/-- Extraction of a minimal element, modelling `BinaryHeap::{peek, pop}` under the
`OrdQuotePacket` ordering (main.rs lines 48..70), which compares `accept_time`
only (reversed, so the `BinaryHeap` is a min-heap on `accept_time`).  Which of
several elements with equal minimal `accept_time` pops first is unspecified for
`BinaryHeap`; this model takes the first-inserted one (one admissible order). -/
def popMin : List QuotePacket → Option (QuotePacket × List QuotePacket)
  | [] => none
  | x :: xs =>
    match popMin xs with
    | none => some (x, [])
    | some (m, rest) =>
      if m.accept_time < x.accept_time then some (m, x :: rest) else some (x, xs)

theorem popMin_eq_none {w : List QuotePacket} : popMin w = none ↔ w = [] := by
  cases w with
  | nil => simp [popMin]
  | cons x xs =>
    simp only [popMin]
    constructor
    · intro h
      cases hx : popMin xs with
      | none => rw [hx] at h; simp at h
      | some p =>
        rw [hx] at h
        by_cases hlt : p.1.accept_time < x.accept_time <;> simp [hlt] at h
    · intro h; simp at h

/-- Facts about `popMin`: it pops one element, a minimal one. -/
theorem popMin_spec : ∀ {w : List QuotePacket} {m rest},
    popMin w = some (m, rest) →
    w.Perm (m :: rest) ∧ (∀ y ∈ w, m.accept_time ≤ y.accept_time) ∧
      rest.length + 1 = w.length := by
  intro w
  induction w with
  | nil => intro m rest h; simp [popMin] at h
  | cons x xs ih =>
    intro m rest h
    cases hx : popMin xs with
    | none =>
      simp only [popMin, hx] at h
      have hxs : xs = [] := popMin_eq_none.mp hx
      subst hxs
      simp only [Option.some.injEq, Prod.mk.injEq] at h
      obtain ⟨hm, hr⟩ := h
      subst hm; subst hr
      refine ⟨List.Perm.refl _, ?_, by simp⟩
      intro y hy
      simp at hy
      simp [hy]
    | some p =>
      obtain ⟨m1, rest1⟩ := p
      simp only [popMin, hx] at h
      obtain ⟨hperm1, hmin1, hlen1⟩ := ih hx
      by_cases hlt : m1.accept_time < x.accept_time
      · rw [if_pos hlt] at h
        simp only [Option.some.injEq, Prod.mk.injEq] at h
        obtain ⟨hm, hr⟩ := h
        subst hm; subst hr
        refine ⟨?_, ?_, ?_⟩
        · exact (List.Perm.cons x hperm1).trans (List.Perm.swap _ x rest1)
        · intro y hy
          rcases List.mem_cons.mp hy with hy | hy
          · subst hy; exact le_of_lt hlt
          · exact hmin1 y hy
        · simp [← hlen1]
      · rw [if_neg hlt] at h
        simp only [Option.some.injEq, Prod.mk.injEq] at h
        obtain ⟨hm, hr⟩ := h
        subst hm; subst hr
        refine ⟨List.Perm.refl _, ?_, by simp⟩
        intro y hy
        rcases List.mem_cons.mp hy with hy | hy
        · subst hy; exact le_refl _
        · exact le_trans (le_of_not_lt hlt) (hmin1 y hy)

theorem popMin_length {w : List QuotePacket} {m rest}
    (h : popMin w = some (m, rest)) : rest.length + 1 = w.length :=
  (popMin_spec h).2.2

/-- Flush loop of `with_heap` (main.rs lines 307..318), with an explicit fuel
argument (any fuel at least the window length is exact; the wrapper below
passes the window length) so that the loop stays structurally recursive and
kernel-computable.  While the minimum is older than the incoming accept time
minus MAX_DELAY, pop and emit it.  Returns (emitted in pop order, remainder). -/
def heapFlushAux : Nat → List QuotePacket → Int → List QuotePacket × List QuotePacket
  | 0, w, _ => ([], w)
  | fuel + 1, w, t =>
    match popMin w with
    | none => ([], w)
    | some (m, rest) =>
      if m.accept_time + MAX_DELAY < t then
        (m :: (heapFlushAux fuel rest t).1, (heapFlushAux fuel rest t).2)
      else ([], w)

def heapFlush (w : List QuotePacket) (t : Int) :
    List QuotePacket × List QuotePacket :=
  heapFlushAux w.length w t

/-- Fuel is irrelevant once it dominates the window length. -/
theorem heapFlushAux_fuel : ∀ (fuel fuel' : Nat) (w : List QuotePacket) (t : Int),
    w.length ≤ fuel → w.length ≤ fuel' →
    heapFlushAux fuel w t = heapFlushAux fuel' w t := by
  intro fuel
  induction fuel with
  | zero =>
    intro fuel' w t h _
    have : w = [] := List.length_eq_zero.mp (Nat.le_zero.mp h)
    subst this
    cases fuel' <;> simp [heapFlushAux, popMin]
  | succ fuel ih =>
    intro fuel' w t h h'
    cases fuel' with
    | zero =>
      have : w = [] := List.length_eq_zero.mp (Nat.le_zero.mp h')
      subst this
      simp [heapFlushAux, popMin]
    | succ fuel' =>
      simp only [heapFlushAux]
      cases hp : popMin w with
      | none => rfl
      | some p =>
        obtain ⟨m, rest⟩ := p
        have hlen := popMin_length hp
        simp [ih fuel' rest t (by omega) (by omega)]

/-- The loop shape of `heapFlush`, exactly mirroring main.rs lines 308..318. -/
theorem heapFlush_eq (w : List QuotePacket) (t : Int) :
    heapFlush w t =
      match popMin w with
      | none => ([], w)
      | some (m, rest) =>
        if m.accept_time + MAX_DELAY < t then
          (m :: (heapFlush rest t).1, (heapFlush rest t).2)
        else ([], w) := by
  unfold heapFlush
  cases hp : popMin w with
  | none =>
    have : w = [] := popMin_eq_none.mp hp
    subst this
    simp [heapFlushAux, popMin]
  | some p =>
    obtain ⟨m, rest⟩ := p
    have hlen := popMin_length hp
    have hw : w.length = rest.length + 1 := hlen.symm
    rw [hw]
    simp only [heapFlushAux, hp]

/-- Final drain of `with_heap` (main.rs lines 325..328), fuel-based as above:
pop until empty. -/
def heapDrainAux : Nat → List QuotePacket → List QuotePacket
  | 0, _ => []
  | fuel + 1, w =>
    match popMin w with
    | none => []
    | some (m, rest) => m :: heapDrainAux fuel rest

def heapDrain (w : List QuotePacket) : List QuotePacket :=
  heapDrainAux w.length w

theorem heapDrainAux_fuel : ∀ (fuel fuel' : Nat) (w : List QuotePacket),
    w.length ≤ fuel → w.length ≤ fuel' →
    heapDrainAux fuel w = heapDrainAux fuel' w := by
  intro fuel
  induction fuel with
  | zero =>
    intro fuel' w h _
    have : w = [] := List.length_eq_zero.mp (Nat.le_zero.mp h)
    subst this
    cases fuel' <;> simp [heapDrainAux, popMin]
  | succ fuel ih =>
    intro fuel' w h h'
    cases fuel' with
    | zero =>
      have : w = [] := List.length_eq_zero.mp (Nat.le_zero.mp h')
      subst this
      simp [heapDrainAux, popMin]
    | succ fuel' =>
      simp only [heapDrainAux]
      cases hp : popMin w with
      | none => rfl
      | some p =>
        obtain ⟨m, rest⟩ := p
        have hlen := popMin_length hp
        simp [ih fuel' rest (by omega) (by omega)]

/-- The loop shape of `heapDrain`, mirroring main.rs lines 325..328. -/
theorem heapDrain_eq (w : List QuotePacket) :
    heapDrain w =
      match popMin w with
      | none => []
      | some (m, rest) => m :: heapDrain rest := by
  unfold heapDrain
  cases hp : popMin w with
  | none =>
    have : w = [] := popMin_eq_none.mp hp
    subst this
    simp [heapDrainAux, popMin]
  | some p =>
    obtain ⟨m, rest⟩ := p
    have hlen := popMin_length hp
    have hw : w.length = rest.length + 1 := hlen.symm
    rw [hw]
    simp only [heapDrainAux, hp]

/-- The `with_heap` ingestion loop (main.rs lines 302..329) over the decoded
quote stream. -/
def heapRun (w : List QuotePacket) : List QuotePacket → List QuotePacket
  | [] => heapDrain w
  | q :: qs =>
    (heapFlush w q.accept_time).1 ++
      heapRun ((heapFlush w q.accept_time).2 ++ [q]) qs

/-- `with_heap` strategy started from the empty window. -/
def with_heap (qs : List QuotePacket) : List QuotePacket := heapRun [] qs

/-- Window sorted ascending by accept time (non-strict). -/
abbrev SortedW (w : List QuotePacket) : Prop :=
  w.Pairwise fun a b => a.accept_time ≤ b.accept_time

/-- Adjacent-pairs ordering of an emitted sequence, as in the spec's
"for all adjacent emitted quotes (a, b), a.accept_time <= b.accept_time". -/
abbrev sortedAdj (l : List QuotePacket) : Prop :=
  l.Chain' fun a b => a.accept_time ≤ b.accept_time

/-- The spec's bounded-skew assumption (spec section 4.3): no two quotes, in
arrival order, are out of order by more than MAX_DELAY of accept time. -/
abbrev skewBounded (qs : List QuotePacket) : Prop :=
  qs.Pairwise fun a b => a.accept_time ≤ b.accept_time + MAX_DELAY

/-- Pairwise-distinct accept times. -/
abbrev accDistinct (qs : List QuotePacket) : Prop :=
  qs.Pairwise fun a b => a.accept_time ≠ b.accept_time

/-- A quote with the given accept time and all other fields trivial. -/
def mkQ (a : Int) : QuotePacket :=
  { packet_time := 0, accept_time := a, issue_code := []
    bid_price_1 := 0, bid_price_2 := 0, bid_price_3 := 0, bid_price_4 := 0, bid_price_5 := 0
    ask_price_1 := 0, ask_price_2 := 0, ask_price_3 := 0, ask_price_4 := 0, ask_price_5 := 0
    bid_quantity_1 := 0, bid_quantity_2 := 0, bid_quantity_3 := 0, bid_quantity_4 := 0
    bid_quantity_5 := 0
    ask_quantity_1 := 0, ask_quantity_2 := 0, ask_quantity_3 := 0, ask_quantity_4 := 0
    ask_quantity_5 := 0 }


/-- Combined facts about one `heapFlush`: it splits the window into the quotes
satisfying the flush predicate (emitted, in ascending accept-time order, all
below the remainder) and those retained. -/
theorem heapFlushAux_spec : ∀ (fuel : Nat) (w : List QuotePacket) (t : Int), w.length ≤ fuel →
    w.Perm ((heapFlushAux fuel w t).1 ++ (heapFlushAux fuel w t).2) ∧
    (∀ e ∈ (heapFlushAux fuel w t).1, e.accept_time + MAX_DELAY < t) ∧
    (∀ e ∈ (heapFlushAux fuel w t).2, ¬ e.accept_time + MAX_DELAY < t) ∧
    ((heapFlushAux fuel w t).1.Pairwise fun a b => a.accept_time ≤ b.accept_time) ∧
    (∀ x ∈ (heapFlushAux fuel w t).1, ∀ y ∈ (heapFlushAux fuel w t).2,
      x.accept_time ≤ y.accept_time) := by
  intro fuel
  induction fuel with
  | zero =>
    intro w t h
    have : w = [] := List.length_eq_zero.mp (Nat.le_zero.mp h)
    subst this
    simp [heapFlushAux]
  | succ fuel ih =>
    intro w t h
    cases hp : popMin w with
    | none =>
      have : w = [] := popMin_eq_none.mp hp
      subst this
      simp [heapFlushAux, popMin]
    | some p =>
      obtain ⟨m, rest⟩ := p
      obtain ⟨hperm, hmin, hlen⟩ := popMin_spec hp
      have hrest : rest.length ≤ fuel := by omega
      obtain ⟨ihp, ihf, ihs, ihsort, ihcross⟩ := ih rest t hrest
      have hrest_mem : ∀ y ∈ rest, y ∈ w := fun y hy =>
        hperm.symm.subset (List.mem_cons_of_mem m hy)
      by_cases hpred : m.accept_time + MAX_DELAY < t
      · simp only [heapFlushAux, hp, if_pos hpred]
        refine ⟨?_, ?_, ?_, ?_, ?_⟩
        · exact hperm.trans (List.Perm.cons m ihp)
        · intro e he
          rcases List.mem_cons.mp he with he | he
          · subst he; exact hpred
          · exact ihf e he
        · exact ihs
        · refine List.pairwise_cons.mpr ⟨?_, ihsort⟩
          intro e he
          have : e ∈ rest := ihp.symm.subset (List.mem_append_left _ he)
          exact hmin e (hrest_mem e this)
        · intro x hx y hy
          rcases List.mem_cons.mp hx with hx | hx
          · subst hx
            have : y ∈ rest := ihp.symm.subset (List.mem_append_right _ hy)
            exact hmin y (hrest_mem y this)
          · exact ihcross x hx y hy
      · simp only [heapFlushAux, hp, if_neg hpred]
        refine ⟨List.Perm.refl _, by simp, ?_, by simp, by simp⟩
        intro e he
        have := hmin e he
        simp only [MAX_DELAY] at *
        omega

theorem heapFlush_spec (w : List QuotePacket) (t : Int) :
    w.Perm ((heapFlush w t).1 ++ (heapFlush w t).2) ∧
    (∀ e ∈ (heapFlush w t).1, e.accept_time + MAX_DELAY < t) ∧
    (∀ e ∈ (heapFlush w t).2, ¬ e.accept_time + MAX_DELAY < t) ∧
    ((heapFlush w t).1.Pairwise fun a b => a.accept_time ≤ b.accept_time) ∧
    (∀ x ∈ (heapFlush w t).1, ∀ y ∈ (heapFlush w t).2, x.accept_time ≤ y.accept_time) :=
  heapFlushAux_spec w.length w t (le_refl _)

/-- `heapDrain` emits a sorted permutation of the window. -/
theorem heapDrainAux_spec : ∀ (fuel : Nat) (w : List QuotePacket), w.length ≤ fuel →
    w.Perm (heapDrainAux fuel w) ∧
    ((heapDrainAux fuel w).Pairwise fun a b => a.accept_time ≤ b.accept_time) := by
  intro fuel
  induction fuel with
  | zero =>
    intro w h
    have : w = [] := List.length_eq_zero.mp (Nat.le_zero.mp h)
    subst this
    simp [heapDrainAux]
  | succ fuel ih =>
    intro w h
    cases hp : popMin w with
    | none =>
      have : w = [] := popMin_eq_none.mp hp
      subst this
      simp [heapDrainAux, popMin]
    | some p =>
      obtain ⟨m, rest⟩ := p
      obtain ⟨hperm, hmin, hlen⟩ := popMin_spec hp
      obtain ⟨ihp, ihsort⟩ := ih rest (by omega)
      simp only [heapDrainAux, hp]
      refine ⟨hperm.trans (List.Perm.cons m ihp), List.pairwise_cons.mpr ⟨?_, ihsort⟩⟩
      intro e he
      have : e ∈ rest := ihp.symm.subset he
      exact hmin e (hperm.symm.subset (List.mem_cons_of_mem m this))

theorem heapDrain_spec (w : List QuotePacket) :
    w.Perm (heapDrain w) ∧
    ((heapDrain w).Pairwise fun a b => a.accept_time ≤ b.accept_time) :=
  heapDrainAux_spec w.length w (le_refl _)

/-- On a sorted window, `takeWhile`/`dropWhile` with a predicate that is
downward closed along accept time coincide with `filter`. -/
theorem sorted_takeWhile_filter {p : QuotePacket → Bool}
    (hmono : ∀ x y : QuotePacket, x.accept_time ≤ y.accept_time → p y = true → p x = true) :
    ∀ {l : List QuotePacket}, SortedW l →
      l.takeWhile p = l.filter p ∧
        l.dropWhile p = l.filter fun e => ! p e := by
  intro l
  induction l with
  | nil => intro _; simp
  | cons x xs ih =>
    intro hl
    obtain ⟨hx, hxs⟩ := List.pairwise_cons.mp hl
    obtain ⟨iht, ihd⟩ := ih hxs
    by_cases hpx : p x = true
    · simp [List.takeWhile_cons, List.dropWhile_cons, List.filter_cons, hpx, iht, ihd]
    · have hpx' : p x = false := Bool.eq_false_iff.mpr hpx
      have hall : ∀ y ∈ xs, ¬ p y = true := fun y hy hpy => hpx (hmono x y (hx y hy) hpy)
      constructor
      · rw [List.takeWhile_cons, List.filter_cons]
        simp only [hpx', Bool.false_eq_true, if_false, cond_false]
        exact (List.filter_eq_nil_iff.mpr hall).symm
      · rw [List.dropWhile_cons, List.filter_cons]
        simp only [hpx', Bool.false_eq_true, if_false, cond_false, Bool.not_false, cond_true]
        exact congrArg (x :: ·)
          (List.filter_eq_self.mpr fun y hy => by
            simp [Bool.eq_false_iff.mpr (hall y hy)]).symm

/-- On a sorted window, the flushed prefix is exactly the quotes satisfying the
flush predicate. -/
theorem vecFlush_fst {w : List QuotePacket} (q : QuotePacket) (hw : SortedW w) :
    (vecFlush w q).1 =
      w.filter fun e => decide (e.accept_time + MAX_DELAY < q.accept_time) := by
  refine (sorted_takeWhile_filter ?_ hw).1
  intro x y hxy hpy
  simp only [decide_eq_true_eq] at *
  omega

theorem vecFlush_snd {w : List QuotePacket} (q : QuotePacket) (hw : SortedW w) :
    (vecFlush w q).2 =
      w.filter fun e => ! decide (e.accept_time + MAX_DELAY < q.accept_time) := by
  refine (sorted_takeWhile_filter ?_ hw).2
  intro x y hxy hpy
  simp only [decide_eq_true_eq] at *
  omega

/-- Every element dropped by the insert-position scan strictly exceeds the
threshold, on a sorted window. -/
theorem mem_dropWhile_leq {t : Int} : ∀ {w : List QuotePacket}, SortedW w →
    ∀ y ∈ w.dropWhile fun e => decide (e.accept_time ≤ t), t < y.accept_time := by
  intro w
  induction w with
  | nil => intro _ y hy; simp at hy
  | cons x xs ih =>
    intro hw y hy
    obtain ⟨hx, hxs⟩ := List.pairwise_cons.mp hw
    rw [List.dropWhile_cons] at hy
    by_cases hpx : x.accept_time ≤ t
    · simp only [hpx, decide_eq_true_eq, if_pos] at hy
      exact ih hxs y hy
    · simp only [decide_eq_true_eq, hpx, if_false, if_neg] at hy
      rcases List.mem_cons.mp hy with hy | hy
      · subst hy; omega
      · exact lt_of_not_le fun hc => hpx (le_trans (hx y hy) hc)

theorem vecInsert_perm (w : List QuotePacket) (q : QuotePacket) :
    (vecInsert w q).Perm (q :: w) := by
  unfold vecInsert
  refine List.Perm.trans List.perm_middle ?_
  rw [List.takeWhile_append_dropWhile]

/-- Inserting at the partition point keeps the window sorted. -/
theorem vecInsert_sorted {w : List QuotePacket} (q : QuotePacket) (hw : SortedW w) :
    SortedW (vecInsert w q) := by
  unfold vecInsert
  refine List.pairwise_append.mpr ⟨hw.sublist (List.takeWhile_sublist _), ?_, ?_⟩
  · refine List.pairwise_cons.mpr ⟨?_, hw.sublist (List.dropWhile_sublist _)⟩
    intro y hy
    exact le_of_lt (mem_dropWhile_leq hw y hy)
  · intro x hx y hy
    have hxq : x.accept_time ≤ q.accept_time := by
      have := List.mem_takeWhile_imp hx
      simpa using this
    rcases List.mem_cons.mp hy with hy | hy
    · subst hy; exact hxq
    · exact le_trans hxq (le_of_lt (mem_dropWhile_leq hw y hy))

/-- Everything inserted comes out exactly once: the emitted sequence plus
nothing, i.e. the run output is a permutation of window plus input. -/
theorem vecRun_perm : ∀ (qs w : List QuotePacket), (vecRun w qs).Perm (w ++ qs) := by
  intro qs
  induction qs with
  | nil => intro w; simp [vecRun]
  | cons q qs ih =>
    intro w
    show ((vecFlush w q).1 ++ vecRun (vecInsert (vecFlush w q).2 q) qs).Perm (w ++ q :: qs)
    refine (List.Perm.append_left _
      ((ih _).trans ((vecInsert_perm _ q).append_right qs))).trans ?_
    show ((vecFlush w q).1 ++ (q :: (vecFlush w q).2 ++ qs)).Perm (w ++ q :: qs)
    refine (List.Perm.append_left _ List.perm_middle.symm).trans ?_
    rw [← List.append_assoc]
    show (((vecFlush w q).1 ++ (vecFlush w q).2) ++ q :: qs).Perm (w ++ q :: qs)
    unfold vecFlush
    rw [List.takeWhile_append_dropWhile]

theorem vecRun_mem {qs w : List QuotePacket} {y : QuotePacket}
    (hy : y ∈ vecRun w qs) : y ∈ w ∨ y ∈ qs :=
  List.mem_append.mp ((vecRun_perm qs w).subset hy)

/-- Main ordering invariant of `with_vec`: under the bounded-skew assumption
(between future inputs, and between the window and future inputs), starting
from a sorted window, the emitted sequence is sorted by accept time. -/
theorem vecRun_sorted : ∀ (qs w : List QuotePacket), SortedW w →
    (qs.Pairwise fun a b => a.accept_time ≤ b.accept_time + MAX_DELAY) →
    (∀ e ∈ w, ∀ r ∈ qs, e.accept_time ≤ r.accept_time + MAX_DELAY) →
    (vecRun w qs).Pairwise fun a b => a.accept_time ≤ b.accept_time := by
  intro qs
  induction qs with
  | nil => intro w hw _ _; exact hw
  | cons q qs ih =>
    intro w hw hskew hcross
    obtain ⟨hq, hskew'⟩ := List.pairwise_cons.mp hskew
    have hkept : SortedW (vecFlush w q).2 := hw.sublist (List.dropWhile_sublist _)
    have hw' : SortedW (vecInsert (vecFlush w q).2 q) := vecInsert_sorted q hkept
    have hkept_sub : ∀ e ∈ (vecFlush w q).2, e ∈ w := fun e he =>
      (List.dropWhile_sublist _).subset he
    have hcross' : ∀ e ∈ vecInsert (vecFlush w q).2 q, ∀ r ∈ qs,
        e.accept_time ≤ r.accept_time + MAX_DELAY := by
      intro e he r hr
      rcases List.mem_cons.mp ((vecInsert_perm _ q).subset he) with he | he
      · subst he; exact hq r hr
      · exact hcross e (hkept_sub e he) r (List.mem_cons_of_mem q hr)
    have ihs := ih _ hw' hskew' hcross'
    show List.Pairwise _ ((vecFlush w q).1 ++ vecRun (vecInsert (vecFlush w q).2 q) qs)
    refine List.pairwise_append.mpr ⟨hw.sublist (List.takeWhile_sublist _), ihs, ?_⟩
    intro x hx y hy
    have hxw : x ∈ w := (List.takeWhile_sublist _).subset hx
    have hxpred : x.accept_time + MAX_DELAY < q.accept_time := by
      have := List.mem_takeWhile_imp hx
      simpa using this
    rcases vecRun_mem hy with hyw | hyqs
    · rcases List.mem_cons.mp ((vecInsert_perm _ q).subset hyw) with hyq | hyk
      · subst hyq
        simp only [MAX_DELAY] at hxpred
        omega
      · -- x in flushed prefix, y in kept suffix of the same sorted window
        have hsplit := List.pairwise_append.mp
          (show List.Pairwise (fun a b : QuotePacket => a.accept_time ≤ b.accept_time)
              ((vecFlush w q).1 ++ (vecFlush w q).2) from by
            show List.Pairwise _ (List.takeWhile _ w ++ List.dropWhile _ w)
            rw [List.takeWhile_append_dropWhile]
            exact hw)
        exact hsplit.2.2 x hx y hyk
    · have := hq y hyqs
      simp only [MAX_DELAY] at *
      omega

theorem heapRun_perm : ∀ (qs w : List QuotePacket), (heapRun w qs).Perm (w ++ qs) := by
  intro qs
  induction qs with
  | nil =>
    intro w
    show (heapDrain w).Perm (w ++ [])
    rw [List.append_nil]
    exact (heapDrain_spec w).1.symm
  | cons q qs ih =>
    intro w
    show ((heapFlush w q.accept_time).1 ++
      heapRun ((heapFlush w q.accept_time).2 ++ [q]) qs).Perm (w ++ q :: qs)
    refine (List.Perm.append_left _ (ih _)).trans ?_
    have h1 : (((heapFlush w q.accept_time).2 ++ [q]) ++ qs).Perm
        ((heapFlush w q.accept_time).2 ++ q :: qs) := by
      rw [List.append_assoc]
      exact List.Perm.refl _
    refine (List.Perm.append_left _ h1).trans ?_
    rw [← List.append_assoc]
    exact ((heapFlush_spec w q.accept_time).1.symm.append_right (q :: qs))

theorem heapRun_mem {qs w : List QuotePacket} {y : QuotePacket}
    (hy : y ∈ heapRun w qs) : y ∈ w ∨ y ∈ qs :=
  List.mem_append.mp ((heapRun_perm qs w).subset hy)

/-- Main ordering invariant of `with_heap`, the analogue of `vecRun_sorted`
(no sortedness needed of the multiset window). -/
theorem heapRun_sorted : ∀ (qs w : List QuotePacket),
    (qs.Pairwise fun a b => a.accept_time ≤ b.accept_time + MAX_DELAY) →
    (∀ e ∈ w, ∀ r ∈ qs, e.accept_time ≤ r.accept_time + MAX_DELAY) →
    (heapRun w qs).Pairwise fun a b => a.accept_time ≤ b.accept_time := by
  intro qs
  induction qs with
  | nil => intro w _ _; exact (heapDrain_spec w).2
  | cons q qs ih =>
    intro w hskew hcross
    obtain ⟨hq, hskew'⟩ := List.pairwise_cons.mp hskew
    obtain ⟨hfperm, hffst, hfsnd, hfsort, hfcross⟩ := heapFlush_spec w q.accept_time
    have hsnd_mem : ∀ e ∈ (heapFlush w q.accept_time).2, e ∈ w := fun e he =>
      hfperm.symm.subset (List.mem_append_right _ he)
    have hfst_mem : ∀ e ∈ (heapFlush w q.accept_time).1, e ∈ w := fun e he =>
      hfperm.symm.subset (List.mem_append_left _ he)
    have hcross' : ∀ e ∈ (heapFlush w q.accept_time).2 ++ [q], ∀ r ∈ qs,
        e.accept_time ≤ r.accept_time + MAX_DELAY := by
      intro e he r hr
      rcases List.mem_append.mp he with he | he
      · exact hcross e (hsnd_mem e he) r (List.mem_cons_of_mem q hr)
      · rw [List.mem_singleton.mp he]; exact hq r hr
    have ihs := ih _ hskew' hcross'
    show List.Pairwise _ ((heapFlush w q.accept_time).1 ++
      heapRun ((heapFlush w q.accept_time).2 ++ [q]) qs)
    refine List.pairwise_append.mpr ⟨hfsort, ihs, ?_⟩
    intro x hx y hy
    have hxpred := hffst x hx
    rcases heapRun_mem hy with hyw | hyqs
    · rcases List.mem_append.mp hyw with hyk | hyq
      · exact hfcross x hx y hyk
      · rw [List.mem_singleton.mp hyq]
        simp only [MAX_DELAY] at hxpred
        omega
    · have := hq y hyqs
      simp only [MAX_DELAY] at *
      omega

/-- Strictly sorted (used when all accept times are pairwise distinct). -/
abbrev StrictSortedW (w : List QuotePacket) : Prop :=
  w.Pairwise fun a b => a.accept_time < b.accept_time

/-- On a multiset presented by a strictly sorted list, `popMin` pops exactly
the head of the sorted presentation. -/
theorem popMin_of_strict {w : List QuotePacket} {x : QuotePacket} {s : List QuotePacket}
    (hperm : w.Perm (x :: s)) (hsorted : StrictSortedW (x :: s)) :
    ∃ rest, popMin w = some (x, rest) ∧ rest.Perm s := by
  obtain ⟨hx, _⟩ := List.pairwise_cons.mp hsorted
  cases hpm : popMin w with
  | none =>
    exfalso
    have : w = [] := popMin_eq_none.mp hpm
    subst this
    exact absurd hperm.length_eq (by simp)
  | some p =>
    obtain ⟨m, rest⟩ := p
    obtain ⟨hperm2, hmin, _⟩ := popMin_spec hpm
    have hm_in : m ∈ x :: s := hperm.subset (hperm2.symm.subset (List.mem_cons_self m rest))
    have hx_in : x ∈ w := hperm.symm.subset (List.mem_cons_self x s)
    have hxm : m.accept_time ≤ x.accept_time := hmin x hx_in
    have hm_eq : m = x := by
      rcases List.mem_cons.mp hm_in with h | h
      · exact h
      · exact absurd (hx m h) (not_lt_of_le hxm)
    subst hm_eq
    refine ⟨rest, rfl, ?_⟩
    exact (List.perm_cons m).mp (hperm2.symm.trans hperm)

/-- When the window has pairwise-distinct accept times, the heap flush agrees
exactly with the vec flush on the sorted presentation of the same multiset. -/
theorem heapFlush_of_strict (t : Int) : ∀ (s : List QuotePacket), StrictSortedW s →
    ∀ (w : List QuotePacket), w.Perm s →
    (heapFlush w t).1 = (s.takeWhile fun e => decide (e.accept_time + MAX_DELAY < t)) ∧
    (heapFlush w t).2.Perm (s.dropWhile fun e => decide (e.accept_time + MAX_DELAY < t)) := by
  intro s
  induction s with
  | nil =>
    intro _ w hw
    have : w = [] := List.length_eq_zero.mp (by simpa using hw.length_eq)
    subst this
    simp [heapFlush, heapFlushAux]
  | cons x s ih =>
    intro hsorted w hw
    obtain ⟨rest, hpm, hrest⟩ := popMin_of_strict hw hsorted
    rw [heapFlush_eq w t, hpm]
    dsimp only
    by_cases hpred : x.accept_time + MAX_DELAY < t
    · obtain ⟨ih1, ih2⟩ := ih (List.pairwise_cons.mp hsorted).2 rest hrest
      rw [if_pos hpred, List.takeWhile_cons]
      simp only [hpred, decide_eq_true_eq, if_pos]
      rw [List.dropWhile_cons]
      simp only [hpred, decide_eq_true_eq, if_pos]
      exact ⟨by rw [ih1], ih2⟩
    · rw [if_neg hpred]
      refine ⟨?_, ?_⟩
      · simp [List.takeWhile_cons, hpred]
      · rw [show List.dropWhile (fun e => decide (e.accept_time + MAX_DELAY < t)) (x :: s)
            = x :: s from by simp [List.dropWhile_cons, hpred]]
        exact hw

/-- When the window has pairwise-distinct accept times, the final heap drain
is exactly the sorted presentation of the window. -/
theorem heapDrain_of_strict : ∀ (s : List QuotePacket), StrictSortedW s →
    ∀ (w : List QuotePacket), w.Perm s → heapDrain w = s := by
  intro s
  induction s with
  | nil =>
    intro _ w hw
    have : w = [] := List.length_eq_zero.mp (by simpa using hw.length_eq)
    subst this
    simp [heapDrain, heapDrainAux]
  | cons x s ih =>
    intro hsorted w hw
    obtain ⟨rest, hpm, hrest⟩ := popMin_of_strict hw hsorted
    rw [heapDrain_eq w, hpm]
    dsimp only
    rw [ih (List.pairwise_cons.mp hsorted).2 rest hrest]

/-- Inserting a fresh accept time into a strictly sorted window keeps it
strictly sorted. -/
theorem vecInsert_strict {w : List QuotePacket} (q : QuotePacket)
    (hw : StrictSortedW w) (hne : ∀ e ∈ w, e.accept_time ≠ q.accept_time) :
    StrictSortedW (vecInsert w q) := by
  have hwle : SortedW w := hw.imp fun h => le_of_lt h
  unfold vecInsert
  refine List.pairwise_append.mpr ⟨hw.sublist (List.takeWhile_sublist _), ?_, ?_⟩
  · refine List.pairwise_cons.mpr ⟨?_, hw.sublist (List.dropWhile_sublist _)⟩
    intro y hy
    exact mem_dropWhile_leq hwle y hy
  · intro x hx y hy
    have hxq : x.accept_time ≤ q.accept_time := by
      simpa using List.mem_takeWhile_imp hx
    have hxq' : x.accept_time < q.accept_time :=
      lt_of_le_of_ne hxq (hne x ((List.takeWhile_sublist _).subset hx))
    rcases List.mem_cons.mp hy with hy | hy
    · subst hy; exact hxq'
    · exact lt_trans hxq' (mem_dropWhile_leq hwle y hy)

/-- Core of strategy equivalence: with pairwise-distinct accept times, the heap
run on any presentation of the sorted vec window emits the same sequence as the
vec run. -/
theorem heapRun_eq_vecRun : ∀ (qs s w : List QuotePacket), w.Perm s →
    StrictSortedW s →
    ((s ++ qs).Pairwise fun a b => a.accept_time ≠ b.accept_time) →
    heapRun w qs = vecRun s qs := by
  intro qs
  induction qs with
  | nil =>
    intro s w hw hs _
    exact heapDrain_of_strict s hs w hw
  | cons q qs ih =>
    intro s w hw hs hdist
    obtain ⟨hf1, hf2⟩ := heapFlush_of_strict q.accept_time s hs w hw
    have hkept_strict : StrictSortedW (vecFlush s q).2 :=
      hs.sublist (List.dropWhile_sublist _)
    have hdist_append := List.pairwise_append.mp hdist
    have hqs : ∀ e ∈ s, e.accept_time ≠ q.accept_time := fun e he =>
      hdist_append.2.2 e he q (List.mem_cons_self q qs)
    have hkept_sub : ∀ e ∈ (vecFlush s q).2, e ∈ s := fun e he =>
      (List.dropWhile_sublist _).subset he
    have hins_strict : StrictSortedW (vecInsert (vecFlush s q).2 q) :=
      vecInsert_strict q hkept_strict fun e he => hqs e (hkept_sub e he)
    have hperm' : ((heapFlush w q.accept_time).2 ++ [q]).Perm
        (vecInsert (vecFlush s q).2 q) := by
      refine ((hf2.append_right [q]).trans
        (List.perm_append_singleton q _)).trans (vecInsert_perm _ q).symm
    have hdist' : ((vecInsert (vecFlush s q).2 q ++ qs).Pairwise
        fun a b => a.accept_time ≠ b.accept_time) := by
      have hsub : List.Sublist ((vecFlush s q).2 ++ q :: qs) (s ++ q :: qs) :=
        (List.dropWhile_sublist _).append (List.Sublist.refl _)
      have h1 : List.Pairwise (fun a b => a.accept_time ≠ b.accept_time)
          ((vecFlush s q).2 ++ q :: qs) := hdist.sublist hsub
      have hperm2 : (vecInsert (vecFlush s q).2 q ++ qs).Perm
          ((vecFlush s q).2 ++ q :: qs) :=
        ((vecInsert_perm _ q).append_right qs).trans List.perm_middle.symm
      exact (hperm2.pairwise_iff fun hab => Ne.symm hab).mpr h1
    have ihr := ih (vecInsert (vecFlush s q).2 q)
      ((heapFlush w q.accept_time).2 ++ [q]) hperm' hins_strict hdist'
    show (heapFlush w q.accept_time).1 ++
        heapRun ((heapFlush w q.accept_time).2 ++ [q]) qs
      = (vecFlush s q).1 ++ vecRun (vecInsert (vecFlush s q).2 q) qs
    rw [hf1, ihr]
    rfl

/-- The `with_vec` window is sorted at every point of the run (C7 invariant). -/
theorem vecWindow_sorted : ∀ (qs w : List QuotePacket), SortedW w →
    SortedW (vecWindow w qs) := by
  intro qs
  induction qs with
  | nil => intro w hw; exact hw
  | cons q qs ih =>
    intro w hw
    exact ih _ (vecInsert_sorted q (hw.sublist (List.dropWhile_sublist _)))

/-- With all accept times equal nothing ever flushes and every insert lands at
the very end of the window: `with_vec` is first-in-first-out on ties. -/
theorem vecRun_const_accept : ∀ (qs w : List QuotePacket) (c : Int),
    (∀ e ∈ w, e.accept_time = c) → (∀ e ∈ qs, e.accept_time = c) →
    vecRun w qs = w ++ qs := by
  intro qs
  induction qs with
  | nil => intro w c _ _; simp [vecRun]
  | cons q qs ih =>
    intro w c hwc hqc
    have hqa : q.accept_time = c := hqc q (List.mem_cons_self q qs)
    have hflush : (vecFlush w q).1 = [] ∧ (vecFlush w q).2 = w := by
      unfold vecFlush
      cases w with
      | nil => simp
      | cons x xs =>
        have hxa : x.accept_time = c := hwc x (List.mem_cons_self x xs)
        rw [List.takeWhile_cons, List.dropWhile_cons]
        have : decide (x.accept_time + MAX_DELAY < q.accept_time) = false := by
          simp only [MAX_DELAY, hxa, hqa, decide_eq_false_iff_not]
          omega
        simp [this]
    have hins : vecInsert w q = w ++ [q] := by
      unfold vecInsert
      have ht : List.takeWhile (fun e => decide (e.accept_time ≤ q.accept_time)) w = w :=
        List.takeWhile_eq_self_iff.mpr fun e he => by simp [hwc e he, hqa]
      have hd : List.dropWhile (fun e => decide (e.accept_time ≤ q.accept_time)) w = [] :=
        List.dropWhile_eq_nil_iff.mpr fun e he => by simp [hwc e he, hqa]
      rw [ht, hd]
    show (vecFlush w q).1 ++ vecRun (vecInsert (vecFlush w q).2 q) qs = w ++ q :: qs
    rw [hflush.1, hflush.2, hins]
    have := ih (w ++ [q]) c
      (fun e he => by
        rcases List.mem_append.mp he with he | he
        · exact hwc e he
        · rw [List.mem_singleton.mp he]; exact hqa)
      (fun e he => hqc e (List.mem_cons_of_mem q he))
    rw [List.nil_append, this, List.append_assoc]
    rfl

/-- Outcome of running Rust code that may panic: either a panic or a value.
Rust `Result`-returning code lives in `POr (Except String α)`. -/
inductive POr (α : Type) where
  | panicked : POr α
  | ret : α → POr α
deriving Repr, DecidableEq

deriving instance DecidableEq for Except

/-- The decode monad: may panic, may fail with a `&'static str` error. -/
def DecodeM (α : Type) : Type := POr (Except String α)

instance {α : Type} [DecidableEq α] : DecidableEq (DecodeM α) :=
  inferInstanceAs (DecidableEq (POr (Except String α)))

def dpure {α : Type} (a : α) : DecodeM α := POr.ret (Except.ok a)

def dthrow {α : Type} (e : String) : DecodeM α := POr.ret (Except.error e)

def dpanic {α : Type} : DecodeM α := POr.panicked

def dbind {α β : Type} (m : DecodeM α) (f : α → DecodeM β) : DecodeM β :=
  match m with
  | POr.panicked => POr.panicked
  | POr.ret (Except.error e) => POr.ret (Except.error e)
  | POr.ret (Except.ok a) => f a

instance : Monad DecodeM where
  pure := dpure
  bind := dbind

theorem dbind_dpure {α β : Type} (a : α) (f : α → DecodeM β) :
    dbind (dpure a) f = f a := rfl

theorem dbind_dthrow {α β : Type} (e : String) (f : α → DecodeM β) :
    dbind (dthrow e) f = dthrow e := rfl

theorem dbind_dpanic {α β : Type} (f : α → DecodeM β) :
    dbind dpanic f = dpanic := rfl

theorem bind_eq_dbind {α β : Type} (m : DecodeM α) (f : α → DecodeM β) :
    m >>= f = dbind m f := rfl

/-- Decode one UTF-8-encoded character, as validated by `std::str::from_utf8`:
given the lead byte and the following bytes, return the Unicode scalar value
and the remaining bytes.  Standard table: overlong encodings, surrogates
(0xED with continuation above 0x9F) and values beyond U+10FFFF (0xF4 with
continuation above 0x8F) are rejected. -/
def utf8DecodeOne (b : Nat) (l : List Nat) : Option (Nat × List Nat) :=
  if b < 128 then some (b, l)
  else if 194 ≤ b ∧ b ≤ 223 then
    match l with
    | c1 :: l1 =>
      if 128 ≤ c1 ∧ c1 ≤ 191 then some ((b - 192) * 64 + (c1 - 128), l1) else none
    | [] => none
  else if 224 ≤ b ∧ b ≤ 239 then
    match l with
    | c1 :: c2 :: l2 =>
      if (if b = 224 then 160 ≤ c1 ∧ c1 ≤ 191
          else if b = 237 then 128 ≤ c1 ∧ c1 ≤ 159
          else 128 ≤ c1 ∧ c1 ≤ 191) ∧ 128 ≤ c2 ∧ c2 ≤ 191 then
        some ((b - 224) * 4096 + (c1 - 128) * 64 + (c2 - 128), l2)
      else none
    | _ => none
  else if 240 ≤ b ∧ b ≤ 244 then
    match l with
    | c1 :: c2 :: c3 :: l3 =>
      if (if b = 240 then 144 ≤ c1 ∧ c1 ≤ 191
          else if b = 244 then 128 ≤ c1 ∧ c1 ≤ 143
          else 128 ≤ c1 ∧ c1 ≤ 191) ∧ (128 ≤ c2 ∧ c2 ≤ 191) ∧
          128 ≤ c3 ∧ c3 ≤ 191 then
        some ((b - 240) * 262144 + (c1 - 128) * 4096 + (c2 - 128) * 64 + (c3 - 128), l3)
      else none
    | _ => none
  else none

/-- The decode loop of `from_utf8` / `str::chars`; fuel-based (any fuel at
least the byte length is exact, the wrapper passes the byte length). -/
def utf8DecodeAux : Nat → List Nat → Option (List Nat)
  | _, [] => some []
  | 0, _ :: _ => none
  | fuel + 1, b :: l =>
    match utf8DecodeOne b l with
    | none => none
    | some (c, rest) => (utf8DecodeAux fuel rest).map fun cs => c :: cs

/-- UTF-8 validation and decoding to Unicode scalar values. -/
def utf8Decode (s : List Nat) : Option (List Nat) := utf8DecodeAux s.length s

/-- Byte-level model of `u32::from_str_radix(s, 10)` (main.rs line 147): an
optional single leading '+' (which Rust accepts also for unsigned types), then
one or more ASCII digits, value below 2^32; anything else is `none`. -/
def parseU32 (s : List Nat) : Option Nat :=
  match s with
  | [] => none
  | b :: _ =>
    let digits := if b = 43 then s.tail else s
    if digits.isEmpty then none
    else if digits.all fun d => 48 ≤ d && d ≤ 57 then
      let v := digits.foldl (fun acc d => acc * 10 + (d - 48)) 0
      if v < 4294967296 then some v else none
    else none

def PARSE_INT_ERROR : String := "Cannot parse number"

def UTF8_ERROR : String := "Invalid UTF-8"

def DATE_ERROR : String := "Invalid date"

/-- The feed marker `b"B6034"` (main.rs line 105). -/
def DATA_INFO_MARKET : List Nat := [66, 54, 48, 51, 52]

/-- Rust slice indexing `&payload[start..start+len]`; out of range panics. -/
def sliceBytes (p : List Nat) (start len : Nat) : DecodeM (List Nat) :=
  if start + len ≤ p.length then dpure ((p.drop start).take len) else dpanic

/-- `std::str::from_utf8` (main.rs line 146): the `str` is modelled by its
bytes, returned only when they are valid UTF-8. -/
def from_utf8 (s : List Nat) : DecodeM (List Nat) :=
  if (utf8Decode s).isSome then dpure s else dthrow UTF8_ERROR

/-- `u32::from_str_radix(str, 10)` lifted into the decode monad (main.rs 147). -/
def parse_u32 (s : List Nat) : DecodeM Nat :=
  match parseU32 s with
  | some v => dpure v
  | none => dthrow PARSE_INT_ERROR

/-- The characters of a (valid) str, as by `str::chars`. -/
def strChars (s : List Nat) : List Nat := (utf8Decode s).getD []

/-- `str::is_char_boundary`. -/
def isCharBoundary (s : List Nat) (i : Nat) : Bool :=
  if i = 0 then true
  else
    match s.get? i with
    | some b => decide (b < 128) || decide (192 ≤ b)
    | none => decide (i = s.length)

/-- Byte-range slicing `&str[a..b]` of a str, which panics when an index is out
of range, out of order, or not on a character boundary. -/
def strSlice (s : List Nat) (a b : Nat) : DecodeM (List Nat) :=
  if a ≤ b ∧ isCharBoundary s a = true ∧ isCharBoundary s b = true then
    dpure ((s.drop a).take (b - a))
  else dpanic

/-- `IssueCode::try_from` (main.rs lines 34..46): checks that the *byte* length
is 12, then materialises 12 chars through `chars.next().unwrap()` — which
panics when the string holds fewer than 12 characters (multi-byte content). -/
def issueCode_try_from (s : List Nat) : DecodeM (List Nat) :=
  if s.length ≠ 12 then dthrow "Must be 12 characters"
  else if 12 ≤ (strChars s).length then dpure ((strChars s).take 12)
  else dpanic

/-- `FixedOffset::east_opt` (chrono): `none` iff the magnitude reaches a day. -/
def fixedOffset_east_opt (secs : Int) : Option Int :=
  if -86400 < secs ∧ secs < 86400 then some secs else none

/-- `NaiveDate::and_hms_milli_opt` validity (chrono): hour, minute, second in
range and milliseconds below 2000 (1000..1999 being chrono's leap-second
encoding, unreachable here since the payload supplies at most 990).  Returns
the time of day in milliseconds. -/
def and_hms_milli_opt (h m s milli : Nat) : Option Nat :=
  if h ≤ 23 ∧ m ≤ 59 ∧ s ≤ 59 ∧ milli ≤ 1999 then
    some (((h * 60 + m) * 60 + s) * 1000 + milli)
  else none

def microsPerDay : Int := 86400000000

/-- `QuotePacket::try_from_udp_payload` (main.rs lines 138..220); `packet_time`
in microseconds UTC, `udp_payload` the raw bytes.  `date_naive()` is the UTC
calendar day (floor division); building the accept instant on that day in the
fixed UTC+9 offset and converting to UTC subtracts the offset
(`and_local_timezone(korea).single()` is always `Single` for a fixed offset).
The release binary elides the two `debug_assert!`s, so they are not modelled
here; the asserted `accept_time < packet_time` property is studied separately. -/
def try_from_udp_payload (packet_time : Int) (udp_payload : List Nat) :
    DecodeM QuotePacket := do
  let parse := fun start len => do
    parse_u32 (← from_utf8 (← sliceBytes udp_payload start len))
  let parse_price := fun start => parse start 5
  let parse_quantity := fun start => parse start 7
  let issue_code ← issueCode_try_from (← from_utf8 (← sliceBytes udp_payload 5 12))
  let bid_price_1 ← parse_price 29
  let bid_quantity_1 ← parse_quantity 34
  let bid_price_2 ← parse_price 41
  let bid_quantity_2 ← parse_quantity 46
  let bid_price_3 ← parse_price 53
  let bid_quantity_3 ← parse_quantity 58
  let bid_price_4 ← parse_price 65
  let bid_quantity_4 ← parse_quantity 70
  let bid_price_5 ← parse_price 77
  let bid_quantity_5 ← parse_quantity 82
  let ask_price_1 ← parse_price 96
  let ask_quantity_1 ← parse_quantity 101
  let ask_price_2 ← parse_price 108
  let ask_quantity_2 ← parse_quantity 113
  let ask_price_3 ← parse_price 120
  let ask_quantity_3 ← parse_quantity 125
  let ask_price_4 ← parse_price 132
  let ask_quantity_4 ← parse_quantity 137
  let ask_price_5 ← parse_price 144
  let ask_quantity_5 ← parse_quantity 149
  let korea ← match fixedOffset_east_opt (9 * 60 * 60) with
    | some k => dpure k
    | none => dthrow DATE_ERROR
  let accept_str ← from_utf8 (← sliceBytes udp_payload 206 8)
  let hours ← parse_u32 (← strSlice accept_str 0 2)
  let minutes ← parse_u32 (← strSlice accept_str 2 4)
  let seconds ← parse_u32 (← strSlice accept_str 4 6)
  let centis ← parse_u32 (← strSlice accept_str 6 8)
  let tod ← match and_hms_milli_opt hours minutes seconds (centis * 10) with
    | some t => dpure t
    | none => dthrow DATE_ERROR
  let accept_time :=
    (packet_time.fdiv microsPerDay * 86400000 + (tod : Int)) * 1000 - korea * 1000000
  dpure
    { packet_time, accept_time, issue_code
      bid_price_1, bid_price_2, bid_price_3, bid_price_4, bid_price_5
      ask_price_1, ask_price_2, ask_price_3, ask_price_4, ask_price_5
      bid_quantity_1, bid_quantity_2, bid_quantity_3, bid_quantity_4, bid_quantity_5
      ask_quantity_1, ask_quantity_2, ask_quantity_3, ask_quantity_4, ask_quantity_5 }

structure UdpView where
  payload : List Nat
deriving Repr, DecidableEq

structure Ipv4View where
  protocol : Nat
  udp : Option UdpView
deriving Repr, DecidableEq

structure EthView where
  ethertype : Nat
  ipv4 : Option Ipv4View
deriving Repr, DecidableEq

/-- Modelled from the spec: a captured frame as seen through the external
collaborators of section 6 — the capture timestamp converted to UTC
microseconds by chrono (`None` when unrepresentable), and the pnet
Ethernet/IPv4/UDP header decompositions (`None` when the respective header
parse fails).  Only these outputs reach the decoder. -/
structure Frame where
  packetTimeMicros : Option Int
  eth : Option EthView
deriving Repr, DecidableEq

def etherTypeIpv4 : Nat := 2048

def ipProtocolUdp : Nat := 17

/-- `QuotePacket::try_from_packet` (main.rs lines 113..135): locate the UDP
payload through the decomposition chain (IPv4 ethertype, UDP protocol), skip
(`none`) frames that are not this feed's traffic, and otherwise decode.
`&udp_payload[..5]` panics when the payload is shorter than 5 bytes.  The
`packet_time.ok_or(DATE_ERROR)?` runs inside the final closure, so a marked
frame with an unrepresentable capture timestamp yields `some (error ...)`. -/
def try_from_packet (f : Frame) : POr (Option (Except String QuotePacket)) :=
  let udpPayload :=
    (((f.eth.bind fun e => if e.ethertype = etherTypeIpv4 then e.ipv4 else none).bind
        fun i4 => if i4.protocol = ipProtocolUdp then some i4 else none).bind
      fun i4 => i4.udp).map fun u => u.payload
  match udpPayload with
  | none => POr.ret none
  | some pl =>
    if pl.length < 5 then POr.panicked
    else if pl.take 5 = DATA_INFO_MARKET then
      match f.packetTimeMicros with
      | none => POr.ret (some (Except.error DATE_ERROR))
      | some t =>
        match try_from_udp_payload t pl with
        | POr.panicked => POr.panicked
        | POr.ret r => POr.ret (some r)
    else POr.ret none

/-- Decimal rendering of a `u32` as by Rust's `Display` (no sign, no leading
zeros, `"0"` for zero); fuel-based to stay structurally recursive. -/
def natDecimalAux : Nat → Nat → List Nat
  | 0, _ => []
  | fuel + 1, n =>
    if n < 10 then [48 + n] else natDecimalAux fuel (n / 10) ++ [48 + n % 10]

def natDecimal (n : Nat) : List Nat := natDecimalAux (n + 1) n

/-- Rust format `{x:>6}`: the rendered text right-aligned (spaces on the left)
to a minimum width. -/
def padLeftTo (w : Nat) (s : List Nat) : List Nat :=
  List.replicate (w - s.length) 32 ++ s

/-- Rust format `{x:<6}`: left-aligned (spaces on the right). -/
def padRightTo (w : Nat) (s : List Nat) : List Nat :=
  s ++ List.replicate (w - s.length) 32

/-- The ten (quantity, price) pairs in the order of the `Display` loop
(main.rs lines 231..242): bids level 5..1 then asks level 1..5. -/
def displayPairs (q : QuotePacket) : List (Nat × Nat) :=
  [(q.bid_quantity_5, q.bid_price_5), (q.bid_quantity_4, q.bid_price_4),
   (q.bid_quantity_3, q.bid_price_3), (q.bid_quantity_2, q.bid_price_2),
   (q.bid_quantity_1, q.bid_price_1), (q.ask_quantity_1, q.ask_price_1),
   (q.ask_quantity_2, q.ask_price_2), (q.ask_quantity_3, q.ask_price_3),
   (q.ask_quantity_4, q.ask_price_4), (q.ask_quantity_5, q.ask_price_5)]

/-- `impl Display for QuotePacket` (main.rs lines 223..248), abstracting the
chrono `DateTime<Utc>` renderer as the parameter `tr` (an external library
concern; the spec only fixes that timestamps render in a sortable text form).
The result is the emitted line as Unicode scalar values: `"{} {} "` with the
two timestamps, the issue-code chars, then for each pair `" {q:>6}@{p:<6}"`. -/
def display (tr : Int → List Nat) (q : QuotePacket) : List Nat :=
  tr q.packet_time ++ [32] ++ tr q.accept_time ++ [32] ++ q.issue_code ++
    (displayPairs q).foldl
      (fun acc p => acc ++ ([32] ++ padLeftTo 6 (natDecimal p.1) ++ [64] ++
        padRightTo 6 (natDecimal p.2))) []

/-- Fixed-width zero-padded decimal encoding (the wire form of the numeric
fields); least significant digit last. -/
def natToDigits : Nat → Nat → List Nat
  | 0, _ => []
  | w + 1, v => natToDigits w (v / 10) ++ [48 + v % 10]

/-- Synthetic well-formed payload with the field layout consumed by
`try_from_udp_payload`: marker, 12-byte issue code, gaps (spaces), five bid and
five ask (5-digit price, 7-digit quantity) pairs, the 8-digit `HHMMSShh`
accept-time field at offset 206, and a trailing 0xFF byte; 215 bytes total. -/
def mkPayload (issue : List Nat)
    (bp1 bq1 bp2 bq2 bp3 bq3 bp4 bq4 bp5 bq5
     ap1 aq1 ap2 aq2 ap3 aq3 ap4 aq4 ap5 aq5
     hh mm ss cc : Nat) : List Nat :=
  DATA_INFO_MARKET ++ issue ++ List.replicate 12 32 ++
  natToDigits 5 bp1 ++ natToDigits 7 bq1 ++
  natToDigits 5 bp2 ++ natToDigits 7 bq2 ++
  natToDigits 5 bp3 ++ natToDigits 7 bq3 ++
  natToDigits 5 bp4 ++ natToDigits 7 bq4 ++
  natToDigits 5 bp5 ++ natToDigits 7 bq5 ++
  List.replicate 7 32 ++
  natToDigits 5 ap1 ++ natToDigits 7 aq1 ++
  natToDigits 5 ap2 ++ natToDigits 7 aq2 ++
  natToDigits 5 ap3 ++ natToDigits 7 aq3 ++
  natToDigits 5 ap4 ++ natToDigits 7 aq4 ++
  natToDigits 5 ap5 ++ natToDigits 7 aq5 ++
  List.replicate 50 32 ++
  natToDigits 2 hh ++ natToDigits 2 mm ++ natToDigits 2 ss ++ natToDigits 2 cc ++
  [255]

theorem natToDigits_length : ∀ (w v : Nat), (natToDigits w v).length = w := by
  intro w
  induction w with
  | zero => intro v; rfl
  | succ w ih => intro v; simp [natToDigits, ih]

theorem natToDigits_digits : ∀ (w v : Nat) (b : Nat), b ∈ natToDigits w v →
    48 ≤ b ∧ b ≤ 57 := by
  intro w
  induction w with
  | zero => intro v b hb; simp [natToDigits] at hb
  | succ w ih =>
    intro v b hb
    simp only [natToDigits, List.mem_append, List.mem_singleton] at hb
    rcases hb with hb | hb
    · exact ih _ b hb
    · subst hb
      have : v % 10 < 10 := Nat.mod_lt v (by omega)
      omega

theorem utf8DecodeOne_ascii {b : Nat} (l : List Nat) (hb : b < 128) :
    utf8DecodeOne b l = some (b, l) := by
  unfold utf8DecodeOne
  rw [if_pos hb]

theorem utf8DecodeAux_ascii : ∀ (fuel : Nat) {s : List Nat}, s.length ≤ fuel →
    (∀ b ∈ s, b < 128) → utf8DecodeAux fuel s = some s := by
  intro fuel
  induction fuel with
  | zero =>
    intro s hl _
    have : s = [] := List.length_eq_zero.mp (Nat.le_zero.mp hl)
    subst this; rfl
  | succ fuel ih =>
    intro s hl h
    cases s with
    | nil => rfl
    | cons b l =>
      have hb : b < 128 := h b (List.mem_cons_self b l)
      simp only [utf8DecodeAux, utf8DecodeOne_ascii l hb]
      rw [ih (by simp at hl; omega) fun x hx => h x (List.mem_cons_of_mem b hx)]
      rfl

theorem utf8Decode_ascii {s : List Nat} (h : ∀ b ∈ s, b < 128) :
    utf8Decode s = some s :=
  utf8DecodeAux_ascii s.length (le_refl _) h

theorem from_utf8_ascii {s : List Nat} (h : ∀ b ∈ s, b < 128) :
    from_utf8 s = dpure s := by
  simp [from_utf8, utf8Decode_ascii h]

theorem strChars_ascii {s : List Nat} (h : ∀ b ∈ s, b < 128) : strChars s = s := by
  simp [strChars, utf8Decode_ascii h]

theorem natToDigits_ascii (w v : Nat) : ∀ b ∈ natToDigits w v, b < 128 := by
  intro b hb
  have := natToDigits_digits w v b hb
  omega

/-- Base-10 digit round trip: the fold of `parseU32` over a fixed-width
encoding recovers the value modulo the width. -/
theorem digits_foldl : ∀ (w v a : Nat),
    (natToDigits w v).foldl (fun acc d => acc * 10 + (d - 48)) a =
      a * 10 ^ w + v % 10 ^ w := by
  intro w
  induction w with
  | zero => intro v a; simp [natToDigits, Nat.mod_one]
  | succ w ih =>
    intro v a
    simp only [natToDigits, List.foldl_append, List.foldl_cons, List.foldl_nil, ih]
    have h1 : (48 + v % 10) - 48 = v % 10 := by omega
    rw [h1]
    have h2 : (10:Nat) ^ (w + 1) = 10 * 10 ^ w := by ring
    rw [h2, Nat.mod_mul]
    ring

theorem parseU32_natToDigits (w v : Nat) (hw : 0 < w) (hv : v < 10 ^ w)
    (h32 : (10:Nat) ^ w ≤ 4294967296) :
    parseU32 (natToDigits w v) = some v := by
  obtain ⟨w', rfl⟩ : ∃ w', w = w' + 1 := ⟨w - 1, by omega⟩
  have hne : natToDigits (w' + 1) v = natToDigits w' (v / 10) ++ [48 + v % 10] := rfl
  have hmod : v % 10 ^ (w' + 1) = v := Nat.mod_eq_of_lt hv
  have hfold := digits_foldl (w' + 1) v 0
  rw [hmod] at hfold
  simp only [Nat.zero_mul, Nat.zero_add] at hfold
  cases hd : natToDigits (w' + 1) v with
  | nil =>
    exfalso
    have := natToDigits_length (w' + 1) v
    rw [hd] at this
    simp at this
  | cons b rest =>
    have hb : 48 ≤ b ∧ b ≤ 57 := natToDigits_digits _ _ b (by rw [hd]; exact List.mem_cons_self _ _)
    have hbne : b ≠ 43 := by omega
    simp only [parseU32, hbne, if_false, if_neg]
    have hall : (b :: rest).all (fun d => 48 ≤ d && d ≤ 57) = true := by
      rw [← hd]
      simp only [List.all_eq_true, Bool.and_eq_true, decide_eq_true_eq]
      intro d hdm
      have := natToDigits_digits _ _ d hdm
      omega
    have hnotempty : (b :: rest).isEmpty = false := rfl
    simp only [hnotempty, hall, if_true, Bool.false_eq_true, if_false]
    rw [← hd, hfold]
    simp [lt_of_lt_of_le hv h32]

theorem parse_u32_digits (w v : Nat) (hw : 0 < w) (hv : v < 10 ^ w)
    (h32 : (10:Nat) ^ w ≤ 4294967296) :
    parse_u32 (natToDigits w v) = dpure v := by
  simp [parse_u32, parseU32_natToDigits w v hw hv h32]

/-- Skipping a leading segment in a byte slice. -/
theorem sliceBytes_append_skip {a p : List Nat} {s l : Nat} (h : a.length ≤ s) :
    sliceBytes (a ++ p) s l = sliceBytes p (s - a.length) l := by
  unfold sliceBytes
  have hdrop : (a ++ p).drop s = p.drop (s - a.length) := by
    rw [List.drop_append_eq_append_drop, List.drop_eq_nil_of_le h]
    simp
  by_cases hc : s + l ≤ (a ++ p).length
  · rw [if_pos hc, if_pos (by simp at hc ⊢; omega), hdrop]
  · rw [if_neg hc, if_neg (by simp at hc ⊢; omega)]

/-- Extracting an exact segment at the head of the remaining payload. -/
theorem sliceBytes_prefix {mid post : List Nat} {l : Nat} (h : mid.length = l) :
    sliceBytes (mid ++ post) 0 l = dpure mid := by
  unfold sliceBytes
  rw [if_pos (by simp; omega)]
  rw [List.drop_zero, List.take_append_eq_append_take, List.take_of_length_le (by omega)]
  simp [h]

/-- Taking an initial run of the remaining payload. -/
theorem sliceBytes_take {p : List Nat} {n : Nat} (h : n ≤ p.length) :
    sliceBytes p 0 n = dpure (p.take n) := by
  unfold sliceBytes
  rw [if_pos (by omega), List.drop_zero]

theorem isCharBoundary_ascii {s : List Nat} (h : ∀ b ∈ s, b < 128) {i : Nat}
    (hi : i ≤ s.length) : isCharBoundary s i = true := by
  unfold isCharBoundary
  by_cases h0 : i = 0
  · simp [h0]
  · rw [if_neg h0]
    rcases Nat.lt_or_ge i s.length with hlt | hge
    · obtain ⟨b, hb⟩ : ∃ b, s.get? i = some b :=
        ⟨s.get ⟨i, hlt⟩, List.get?_eq_get hlt⟩
      rw [hb]
      have hbm : b ∈ s := List.get?_mem hb
      simp [h b hbm]
    · have hieq : i = s.length := le_antisymm hi hge
      have hnone : s.get? i = none := List.get?_eq_none.mpr (by omega)
      rw [hnone]
      simp [hieq]

theorem strSlice_ascii {s : List Nat} (h : ∀ b ∈ s, b < 128) {a b : Nat}
    (hab : a ≤ b) (hb : b ≤ s.length) :
    strSlice s a b = dpure ((s.drop a).take (b - a)) := by
  unfold strSlice
  rw [if_pos ⟨hab, isCharBoundary_ascii h (le_trans hab hb), isCharBoundary_ascii h hb⟩]

theorem issueCode_ascii {s : List Nat} (h12 : s.length = 12)
    (h : ∀ b ∈ s, b < 128) : issueCode_try_from s = dpure s := by
  unfold issueCode_try_from
  rw [if_neg (by omega), strChars_ascii h, if_pos (by omega),
    List.take_of_length_le (by omega)]

theorem DATA_INFO_MARKET_length : DATA_INFO_MARKET.length = 5 := rfl

theorem sliceBytes_cons_skip {b : Nat} {p : List Nat} {s l : Nat} (h : 0 < s) :
    sliceBytes (b :: p) s l = sliceBytes p (s - 1) l := by
  rw [show (b :: p) = [b] ++ p from rfl, sliceBytes_append_skip (by simp; omega)]
  simp

theorem from_utf8_digits (w v : Nat) :
    from_utf8 (natToDigits w v) = dpure (natToDigits w v) :=
  from_utf8_ascii (natToDigits_ascii w v)

/-- Symbolic round trip: decoding an encoder-built payload recovers every
field, with the accept time placed on the packet's UTC calendar day at the
given local time of day minus the fixed UTC+9 offset. -/
theorem decode_mkPayload (pt : Int) (issue : List Nat)
    (bp1 bq1 bp2 bq2 bp3 bq3 bp4 bq4 bp5 bq5
     ap1 aq1 ap2 aq2 ap3 aq3 ap4 aq4 ap5 aq5 hh mm ss cc : Nat)
    (h12 : issue.length = 12) (hascii : ∀ b ∈ issue, b < 128)
    (hbp1 : bp1 < 100000) (hbq1 : bq1 < 10000000) (hbp2 : bp2 < 100000) (hbq2 : bq2 < 10000000) (hbp3 : bp3 < 100000)
    (hbq3 : bq3 < 10000000) (hbp4 : bp4 < 100000) (hbq4 : bq4 < 10000000) (hbp5 : bp5 < 100000) (hbq5 : bq5 < 10000000)
    (hap1 : ap1 < 100000) (haq1 : aq1 < 10000000) (hap2 : ap2 < 100000) (haq2 : aq2 < 10000000) (hap3 : ap3 < 100000)
    (haq3 : aq3 < 10000000) (hap4 : ap4 < 100000) (haq4 : aq4 < 10000000) (hap5 : ap5 < 100000) (haq5 : aq5 < 10000000)
    (hhh : hh ≤ 23) (hmm : mm ≤ 59) (hss : ss ≤ 59) (hcc : cc ≤ 99) :
    try_from_udp_payload pt (mkPayload issue bp1 bq1 bp2 bq2 bp3 bq3 bp4 bq4 bp5 bq5 ap1 aq1 ap2 aq2 ap3 aq3 ap4 aq4 ap5 aq5 hh mm ss cc) =
      dpure { packet_time := pt
              accept_time := (pt.fdiv microsPerDay * 86400000 +
                ((((hh * 60 + mm) * 60 + ss) * 1000 + cc * 10 : Nat) : Int)) * 1000 -
                32400000000
              issue_code := issue
              bid_price_1 := bp1, bid_price_2 := bp2, bid_price_3 := bp3
              bid_price_4 := bp4, bid_price_5 := bp5
              ask_price_1 := ap1, ask_price_2 := ap2, ask_price_3 := ap3
              ask_price_4 := ap4, ask_price_5 := ap5
              bid_quantity_1 := bq1, bid_quantity_2 := bq2, bid_quantity_3 := bq3
              bid_quantity_4 := bq4, bid_quantity_5 := bq5
              ask_quantity_1 := aq1, ask_quantity_2 := aq2, ask_quantity_3 := aq3
              ask_quantity_4 := aq4, ask_quantity_5 := aq5 } := by
  have e5 : sliceBytes (mkPayload issue bp1 bq1 bp2 bq2 bp3 bq3 bp4 bq4 bp5 bq5 ap1 aq1 ap2 aq2 ap3 aq3 ap4 aq4 ap5 aq5 hh mm ss cc) 5 12 = dpure issue := by
    simp [mkPayload, DATA_INFO_MARKET_length, sliceBytes_append_skip, sliceBytes_cons_skip, sliceBytes_prefix, natToDigits_length, h12]
  have e29 : sliceBytes (mkPayload issue bp1 bq1 bp2 bq2 bp3 bq3 bp4 bq4 bp5 bq5 ap1 aq1 ap2 aq2 ap3 aq3 ap4 aq4 ap5 aq5 hh mm ss cc) 29 5 = dpure (natToDigits 5 bp1) := by
    simp [mkPayload, DATA_INFO_MARKET_length, sliceBytes_append_skip, sliceBytes_cons_skip, sliceBytes_prefix, natToDigits_length, h12]
  have e34 : sliceBytes (mkPayload issue bp1 bq1 bp2 bq2 bp3 bq3 bp4 bq4 bp5 bq5 ap1 aq1 ap2 aq2 ap3 aq3 ap4 aq4 ap5 aq5 hh mm ss cc) 34 7 = dpure (natToDigits 7 bq1) := by
    simp [mkPayload, DATA_INFO_MARKET_length, sliceBytes_append_skip, sliceBytes_cons_skip, sliceBytes_prefix, natToDigits_length, h12]
  have e41 : sliceBytes (mkPayload issue bp1 bq1 bp2 bq2 bp3 bq3 bp4 bq4 bp5 bq5 ap1 aq1 ap2 aq2 ap3 aq3 ap4 aq4 ap5 aq5 hh mm ss cc) 41 5 = dpure (natToDigits 5 bp2) := by
    simp [mkPayload, DATA_INFO_MARKET_length, sliceBytes_append_skip, sliceBytes_cons_skip, sliceBytes_prefix, natToDigits_length, h12]
  have e46 : sliceBytes (mkPayload issue bp1 bq1 bp2 bq2 bp3 bq3 bp4 bq4 bp5 bq5 ap1 aq1 ap2 aq2 ap3 aq3 ap4 aq4 ap5 aq5 hh mm ss cc) 46 7 = dpure (natToDigits 7 bq2) := by
    simp [mkPayload, DATA_INFO_MARKET_length, sliceBytes_append_skip, sliceBytes_cons_skip, sliceBytes_prefix, natToDigits_length, h12]
  have e53 : sliceBytes (mkPayload issue bp1 bq1 bp2 bq2 bp3 bq3 bp4 bq4 bp5 bq5 ap1 aq1 ap2 aq2 ap3 aq3 ap4 aq4 ap5 aq5 hh mm ss cc) 53 5 = dpure (natToDigits 5 bp3) := by
    simp [mkPayload, DATA_INFO_MARKET_length, sliceBytes_append_skip, sliceBytes_cons_skip, sliceBytes_prefix, natToDigits_length, h12]
  have e58 : sliceBytes (mkPayload issue bp1 bq1 bp2 bq2 bp3 bq3 bp4 bq4 bp5 bq5 ap1 aq1 ap2 aq2 ap3 aq3 ap4 aq4 ap5 aq5 hh mm ss cc) 58 7 = dpure (natToDigits 7 bq3) := by
    simp [mkPayload, DATA_INFO_MARKET_length, sliceBytes_append_skip, sliceBytes_cons_skip, sliceBytes_prefix, natToDigits_length, h12]
  have e65 : sliceBytes (mkPayload issue bp1 bq1 bp2 bq2 bp3 bq3 bp4 bq4 bp5 bq5 ap1 aq1 ap2 aq2 ap3 aq3 ap4 aq4 ap5 aq5 hh mm ss cc) 65 5 = dpure (natToDigits 5 bp4) := by
    simp [mkPayload, DATA_INFO_MARKET_length, sliceBytes_append_skip, sliceBytes_cons_skip, sliceBytes_prefix, natToDigits_length, h12]
  have e70 : sliceBytes (mkPayload issue bp1 bq1 bp2 bq2 bp3 bq3 bp4 bq4 bp5 bq5 ap1 aq1 ap2 aq2 ap3 aq3 ap4 aq4 ap5 aq5 hh mm ss cc) 70 7 = dpure (natToDigits 7 bq4) := by
    simp [mkPayload, DATA_INFO_MARKET_length, sliceBytes_append_skip, sliceBytes_cons_skip, sliceBytes_prefix, natToDigits_length, h12]
  have e77 : sliceBytes (mkPayload issue bp1 bq1 bp2 bq2 bp3 bq3 bp4 bq4 bp5 bq5 ap1 aq1 ap2 aq2 ap3 aq3 ap4 aq4 ap5 aq5 hh mm ss cc) 77 5 = dpure (natToDigits 5 bp5) := by
    simp [mkPayload, DATA_INFO_MARKET_length, sliceBytes_append_skip, sliceBytes_cons_skip, sliceBytes_prefix, natToDigits_length, h12]
  have e82 : sliceBytes (mkPayload issue bp1 bq1 bp2 bq2 bp3 bq3 bp4 bq4 bp5 bq5 ap1 aq1 ap2 aq2 ap3 aq3 ap4 aq4 ap5 aq5 hh mm ss cc) 82 7 = dpure (natToDigits 7 bq5) := by
    simp [mkPayload, DATA_INFO_MARKET_length, sliceBytes_append_skip, sliceBytes_cons_skip, sliceBytes_prefix, natToDigits_length, h12]
  have e96 : sliceBytes (mkPayload issue bp1 bq1 bp2 bq2 bp3 bq3 bp4 bq4 bp5 bq5 ap1 aq1 ap2 aq2 ap3 aq3 ap4 aq4 ap5 aq5 hh mm ss cc) 96 5 = dpure (natToDigits 5 ap1) := by
    simp [mkPayload, DATA_INFO_MARKET_length, sliceBytes_append_skip, sliceBytes_cons_skip, sliceBytes_prefix, natToDigits_length, h12]
  have e101 : sliceBytes (mkPayload issue bp1 bq1 bp2 bq2 bp3 bq3 bp4 bq4 bp5 bq5 ap1 aq1 ap2 aq2 ap3 aq3 ap4 aq4 ap5 aq5 hh mm ss cc) 101 7 = dpure (natToDigits 7 aq1) := by
    simp [mkPayload, DATA_INFO_MARKET_length, sliceBytes_append_skip, sliceBytes_cons_skip, sliceBytes_prefix, natToDigits_length, h12]
  have e108 : sliceBytes (mkPayload issue bp1 bq1 bp2 bq2 bp3 bq3 bp4 bq4 bp5 bq5 ap1 aq1 ap2 aq2 ap3 aq3 ap4 aq4 ap5 aq5 hh mm ss cc) 108 5 = dpure (natToDigits 5 ap2) := by
    simp [mkPayload, DATA_INFO_MARKET_length, sliceBytes_append_skip, sliceBytes_cons_skip, sliceBytes_prefix, natToDigits_length, h12]
  have e113 : sliceBytes (mkPayload issue bp1 bq1 bp2 bq2 bp3 bq3 bp4 bq4 bp5 bq5 ap1 aq1 ap2 aq2 ap3 aq3 ap4 aq4 ap5 aq5 hh mm ss cc) 113 7 = dpure (natToDigits 7 aq2) := by
    simp [mkPayload, DATA_INFO_MARKET_length, sliceBytes_append_skip, sliceBytes_cons_skip, sliceBytes_prefix, natToDigits_length, h12]
  have e120 : sliceBytes (mkPayload issue bp1 bq1 bp2 bq2 bp3 bq3 bp4 bq4 bp5 bq5 ap1 aq1 ap2 aq2 ap3 aq3 ap4 aq4 ap5 aq5 hh mm ss cc) 120 5 = dpure (natToDigits 5 ap3) := by
    simp [mkPayload, DATA_INFO_MARKET_length, sliceBytes_append_skip, sliceBytes_cons_skip, sliceBytes_prefix, natToDigits_length, h12]
  have e125 : sliceBytes (mkPayload issue bp1 bq1 bp2 bq2 bp3 bq3 bp4 bq4 bp5 bq5 ap1 aq1 ap2 aq2 ap3 aq3 ap4 aq4 ap5 aq5 hh mm ss cc) 125 7 = dpure (natToDigits 7 aq3) := by
    simp [mkPayload, DATA_INFO_MARKET_length, sliceBytes_append_skip, sliceBytes_cons_skip, sliceBytes_prefix, natToDigits_length, h12]
  have e132 : sliceBytes (mkPayload issue bp1 bq1 bp2 bq2 bp3 bq3 bp4 bq4 bp5 bq5 ap1 aq1 ap2 aq2 ap3 aq3 ap4 aq4 ap5 aq5 hh mm ss cc) 132 5 = dpure (natToDigits 5 ap4) := by
    simp [mkPayload, DATA_INFO_MARKET_length, sliceBytes_append_skip, sliceBytes_cons_skip, sliceBytes_prefix, natToDigits_length, h12]
  have e137 : sliceBytes (mkPayload issue bp1 bq1 bp2 bq2 bp3 bq3 bp4 bq4 bp5 bq5 ap1 aq1 ap2 aq2 ap3 aq3 ap4 aq4 ap5 aq5 hh mm ss cc) 137 7 = dpure (natToDigits 7 aq4) := by
    simp [mkPayload, DATA_INFO_MARKET_length, sliceBytes_append_skip, sliceBytes_cons_skip, sliceBytes_prefix, natToDigits_length, h12]
  have e144 : sliceBytes (mkPayload issue bp1 bq1 bp2 bq2 bp3 bq3 bp4 bq4 bp5 bq5 ap1 aq1 ap2 aq2 ap3 aq3 ap4 aq4 ap5 aq5 hh mm ss cc) 144 5 = dpure (natToDigits 5 ap5) := by
    simp [mkPayload, DATA_INFO_MARKET_length, sliceBytes_append_skip, sliceBytes_cons_skip, sliceBytes_prefix, natToDigits_length, h12]
  have e149 : sliceBytes (mkPayload issue bp1 bq1 bp2 bq2 bp3 bq3 bp4 bq4 bp5 bq5 ap1 aq1 ap2 aq2 ap3 aq3 ap4 aq4 ap5 aq5 hh mm ss cc) 149 7 = dpure (natToDigits 7 aq5) := by
    simp [mkPayload, DATA_INFO_MARKET_length, sliceBytes_append_skip, sliceBytes_cons_skip, sliceBytes_prefix, natToDigits_length, h12]
  have e206 : sliceBytes (mkPayload issue bp1 bq1 bp2 bq2 bp3 bq3 bp4 bq4 bp5 bq5 ap1 aq1 ap2 aq2 ap3 aq3 ap4 aq4 ap5 aq5 hh mm ss cc) 206 8 =
      dpure (natToDigits 2 hh ++ (natToDigits 2 mm ++ (natToDigits 2 ss ++ natToDigits 2 cc))) := by
    simp [mkPayload, DATA_INFO_MARKET_length, sliceBytes_append_skip, sliceBytes_cons_skip, sliceBytes_take, natToDigits_length, h12,
      List.take_append_eq_append_take, List.take_of_length_le]
  have hacc_ascii : ∀ b ∈ natToDigits 2 hh ++ (natToDigits 2 mm ++ (natToDigits 2 ss ++ natToDigits 2 cc)), b < 128 := by
    intro b hb
    simp only [List.mem_append] at hb
    rcases hb with hb | hb | hb | hb <;> exact natToDigits_ascii _ _ b hb
  have hacc_utf8 := from_utf8_ascii hacc_ascii
  have hacc_len : (natToDigits 2 hh ++ (natToDigits 2 mm ++ (natToDigits 2 ss ++ natToDigits 2 cc))).length = 8 := by
    simp [natToDigits_length]
  have hs0 : strSlice (natToDigits 2 hh ++ (natToDigits 2 mm ++ (natToDigits 2 ss ++ natToDigits 2 cc))) 0 2 = dpure (natToDigits 2 hh) := by
    rw [strSlice_ascii hacc_ascii (by omega) (by omega)]
    simp [List.take_append_eq_append_take, List.take_of_length_le, natToDigits_length]
  have hs2 : strSlice (natToDigits 2 hh ++ (natToDigits 2 mm ++ (natToDigits 2 ss ++ natToDigits 2 cc))) 2 4 = dpure (natToDigits 2 mm) := by
    rw [strSlice_ascii hacc_ascii (by omega) (by omega)]
    simp [List.drop_append_eq_append_drop, List.take_append_eq_append_take,
      List.drop_eq_nil_of_le, List.take_of_length_le, natToDigits_length]
  have hs4 : strSlice (natToDigits 2 hh ++ (natToDigits 2 mm ++ (natToDigits 2 ss ++ natToDigits 2 cc))) 4 6 = dpure (natToDigits 2 ss) := by
    rw [strSlice_ascii hacc_ascii (by omega) (by omega)]
    simp [List.drop_append_eq_append_drop, List.take_append_eq_append_take,
      List.drop_eq_nil_of_le, List.take_of_length_le, natToDigits_length]
  have hs6 : strSlice (natToDigits 2 hh ++ (natToDigits 2 mm ++ (natToDigits 2 ss ++ natToDigits 2 cc))) 6 8 = dpure (natToDigits 2 cc) := by
    rw [strSlice_ascii hacc_ascii (by omega) (by omega)]
    simp [List.drop_append_eq_append_drop, List.take_append_eq_append_take,
      List.drop_eq_nil_of_le, List.take_of_length_le, natToDigits_length]
  have hp_hh : parse_u32 (natToDigits 2 hh) = dpure hh :=
    parse_u32_digits 2 hh (by norm_num) (by omega) (by norm_num)
  have hp_mm : parse_u32 (natToDigits 2 mm) = dpure mm :=
    parse_u32_digits 2 mm (by norm_num) (by omega) (by norm_num)
  have hp_ss : parse_u32 (natToDigits 2 ss) = dpure ss :=
    parse_u32_digits 2 ss (by norm_num) (by omega) (by norm_num)
  have hp_cc : parse_u32 (natToDigits 2 cc) = dpure cc :=
    parse_u32_digits 2 cc (by norm_num) (by omega) (by norm_num)
  have hp_bp1 : parse_u32 (natToDigits 5 bp1) = dpure bp1 :=
    parse_u32_digits 5 bp1 (by norm_num) hbp1 (by norm_num)
  have hp_bq1 : parse_u32 (natToDigits 7 bq1) = dpure bq1 :=
    parse_u32_digits 7 bq1 (by norm_num) hbq1 (by norm_num)
  have hp_bp2 : parse_u32 (natToDigits 5 bp2) = dpure bp2 :=
    parse_u32_digits 5 bp2 (by norm_num) hbp2 (by norm_num)
  have hp_bq2 : parse_u32 (natToDigits 7 bq2) = dpure bq2 :=
    parse_u32_digits 7 bq2 (by norm_num) hbq2 (by norm_num)
  have hp_bp3 : parse_u32 (natToDigits 5 bp3) = dpure bp3 :=
    parse_u32_digits 5 bp3 (by norm_num) hbp3 (by norm_num)
  have hp_bq3 : parse_u32 (natToDigits 7 bq3) = dpure bq3 :=
    parse_u32_digits 7 bq3 (by norm_num) hbq3 (by norm_num)
  have hp_bp4 : parse_u32 (natToDigits 5 bp4) = dpure bp4 :=
    parse_u32_digits 5 bp4 (by norm_num) hbp4 (by norm_num)
  have hp_bq4 : parse_u32 (natToDigits 7 bq4) = dpure bq4 :=
    parse_u32_digits 7 bq4 (by norm_num) hbq4 (by norm_num)
  have hp_bp5 : parse_u32 (natToDigits 5 bp5) = dpure bp5 :=
    parse_u32_digits 5 bp5 (by norm_num) hbp5 (by norm_num)
  have hp_bq5 : parse_u32 (natToDigits 7 bq5) = dpure bq5 :=
    parse_u32_digits 7 bq5 (by norm_num) hbq5 (by norm_num)
  have hp_ap1 : parse_u32 (natToDigits 5 ap1) = dpure ap1 :=
    parse_u32_digits 5 ap1 (by norm_num) hap1 (by norm_num)
  have hp_aq1 : parse_u32 (natToDigits 7 aq1) = dpure aq1 :=
    parse_u32_digits 7 aq1 (by norm_num) haq1 (by norm_num)
  have hp_ap2 : parse_u32 (natToDigits 5 ap2) = dpure ap2 :=
    parse_u32_digits 5 ap2 (by norm_num) hap2 (by norm_num)
  have hp_aq2 : parse_u32 (natToDigits 7 aq2) = dpure aq2 :=
    parse_u32_digits 7 aq2 (by norm_num) haq2 (by norm_num)
  have hp_ap3 : parse_u32 (natToDigits 5 ap3) = dpure ap3 :=
    parse_u32_digits 5 ap3 (by norm_num) hap3 (by norm_num)
  have hp_aq3 : parse_u32 (natToDigits 7 aq3) = dpure aq3 :=
    parse_u32_digits 7 aq3 (by norm_num) haq3 (by norm_num)
  have hp_ap4 : parse_u32 (natToDigits 5 ap4) = dpure ap4 :=
    parse_u32_digits 5 ap4 (by norm_num) hap4 (by norm_num)
  have hp_aq4 : parse_u32 (natToDigits 7 aq4) = dpure aq4 :=
    parse_u32_digits 7 aq4 (by norm_num) haq4 (by norm_num)
  have hp_ap5 : parse_u32 (natToDigits 5 ap5) = dpure ap5 :=
    parse_u32_digits 5 ap5 (by norm_num) hap5 (by norm_num)
  have hp_aq5 : parse_u32 (natToDigits 7 aq5) = dpure aq5 :=
    parse_u32_digits 7 aq5 (by norm_num) haq5 (by norm_num)
  have hissue_utf8 : from_utf8 issue = dpure issue := from_utf8_ascii hascii
  have hissue_code : issueCode_try_from issue = dpure issue := issueCode_ascii h12 hascii
  have h_hms : and_hms_milli_opt hh mm ss (cc * 10) =
      some (((hh * 60 + mm) * 60 + ss) * 1000 + cc * 10) := by
    unfold and_hms_milli_opt
    rw [if_pos (by refine ⟨hhh, hmm, hss, by omega⟩)]
  unfold try_from_udp_payload
  simp only [bind_eq_dbind, e5, e29, e34, e41, e46, e53, e58, e65, e70, e77, e82,
    e96, e101, e108, e113, e120, e125, e132, e137, e144, e149, e206,
    dbind_dpure, from_utf8_digits, hissue_utf8, hissue_code, hacc_utf8,
    hs0, hs2, hs4, hs6, hp_hh, hp_mm, hp_ss, hp_cc,
    hp_bp1, hp_bq1, hp_bp2, hp_bq2, hp_bp3, hp_bq3, hp_bp4, hp_bq4, hp_bp5, hp_bq5,
    hp_ap1, hp_aq1, hp_ap2, hp_aq2, hp_ap3, hp_aq3, hp_ap4, hp_aq4, hp_ap5, hp_aq5,
    h_hms, fixedOffset_east_opt]
  norm_num

/-- The decode result is an error (`Some(Err(_))` at the packet level). -/
def isErr {α : Type} : DecodeM α → Bool
  | POr.ret (Except.error _) => true
  | _ => false

/-- The `len`-byte field window at offset `start` of the payload. -/
def window (p : List Nat) (start len : Nat) : List Nat := (p.drop start).take len

theorem window_length {p : List Nat} {s l : Nat} (h : s + l ≤ p.length) :
    (window p s l).length = l := by
  unfold window
  simp only [List.length_take, List.length_drop]
  omega

/-- Nested sub-window of a window. -/
theorem window_nest {p : List Nat} {s l a b : Nat} (h : a + b ≤ l) :
    ((window p s l).drop a).take b = window p (s + a) b := by
  unfold window
  rw [List.drop_take, List.take_take, List.drop_drop]
  have h1 : min b (l - a) = b := by omega
  rw [h1]

/-- A str window that cannot reach the decoder's panicking char paths: either
plain ASCII, or not valid UTF-8 at all (then decoding stops with
`UTF8_ERROR` before any character is materialised). -/
abbrev asciiOrInvalid (s : List Nat) : Prop :=
  (∀ b ∈ s, b < 128) ∨ utf8Decode s = none

/-- All fixed-offset windows well formed: issue window valid text, every
numeric window an unsigned decimal, accept window valid text whose four
2-byte groups parse into a valid time of day. -/
def wellFormedWindows (p : List Nat) : Bool :=
  (utf8Decode (window p 5 12)).isSome &&
  (parseU32 (window p 29 5)).isSome && (parseU32 (window p 34 7)).isSome &&
  (parseU32 (window p 41 5)).isSome && (parseU32 (window p 46 7)).isSome &&
  (parseU32 (window p 53 5)).isSome && (parseU32 (window p 58 7)).isSome &&
  (parseU32 (window p 65 5)).isSome && (parseU32 (window p 70 7)).isSome &&
  (parseU32 (window p 77 5)).isSome && (parseU32 (window p 82 7)).isSome &&
  (parseU32 (window p 96 5)).isSome && (parseU32 (window p 101 7)).isSome &&
  (parseU32 (window p 108 5)).isSome && (parseU32 (window p 113 7)).isSome &&
  (parseU32 (window p 120 5)).isSome && (parseU32 (window p 125 7)).isSome &&
  (parseU32 (window p 132 5)).isSome && (parseU32 (window p 137 7)).isSome &&
  (parseU32 (window p 144 5)).isSome && (parseU32 (window p 149 7)).isSome &&
  (utf8Decode (window p 206 8)).isSome &&
  (match parseU32 (window p 206 2), parseU32 (window p 208 2),
      parseU32 (window p 210 2), parseU32 (window p 212 2) with
   | some h, some m, some s, some c => (and_hms_milli_opt h m s (c * 10)).isSome
   | _, _, _, _ => false)


def exSkewViolation : List QuotePacket := [mkQ 5000000, mkQ 10000000, mkQ 1000000]

/-- C1 counterexample: without the bounded-skew assumption the ordering claim
fails — with accept times 5s, 10s, 1s the 5s quote is flushed by the 10s
quote and then the late 1s quote is emitted after it, in both strategies. -/
theorem C1_counterexample :
    ¬ (sortedAdj (with_vec exSkewViolation) ∧ sortedAdj (with_heap exSkewViolation)) := by
  intro h
  have hv : with_vec exSkewViolation = [mkQ 5000000, mkQ 1000000, mkQ 10000000] := by
    decide
  have h1 := h.1
  rw [hv] at h1
  obtain ⟨hrel, _⟩ := List.chain'_cons.mp h1
  simp [mkQ] at hrel

/-- C1 (amended): under the spec's bounded-skew assumption (section 4.3: no
two quotes are out of order by more than MAX_DELAY of accept time), every two
adjacently emitted quotes of either strategy satisfy
`a.accept_time <= b.accept_time`, the final drain on input exhaustion
included. -/
theorem C1_ordering_under_bounded_skew (qs : List QuotePacket)
    (h : skewBounded qs) :
    sortedAdj (with_vec qs) ∧ sortedAdj (with_heap qs) := by
  constructor
  · exact (vecRun_sorted qs [] List.Pairwise.nil h (by simp)).chain'
  · exact (heapRun_sorted qs [] h (by simp)).chain'

theorem C1_ordering_witness :
    skewBounded [mkQ 2000000, mkQ 1000000, mkQ 5000000] ∧
    (sortedAdj (with_vec [mkQ 2000000, mkQ 1000000, mkQ 5000000]) ∧
      sortedAdj (with_heap [mkQ 2000000, mkQ 1000000, mkQ 5000000])) :=
  ⟨by decide, C1_ordering_under_bounded_skew _ (by decide)⟩

/-- C2: for every decoded-quote sequence, the ordered-sequence strategy and
the priority-queue strategy emit the same multiset of quotes; when all accept
times are pairwise distinct they emit identical sequences. -/
theorem C2_strategy_equivalence (qs : List QuotePacket) :
    (with_vec qs).Perm (with_heap qs) ∧
    (accDistinct qs → with_vec qs = with_heap qs) := by
  constructor
  · have h1 := vecRun_perm qs []
    have h2 := heapRun_perm qs []
    simp only [List.nil_append] at h1 h2
    exact h1.trans h2.symm
  · intro hd
    exact (heapRun_eq_vecRun qs [] [] (List.Perm.refl _) List.Pairwise.nil
      (by simpa using hd)).symm

theorem C2_strategy_equivalence_witness :
    accDistinct [mkQ 4000000, mkQ 1000000, mkQ 2000000] ∧
    with_vec [mkQ 4000000, mkQ 1000000, mkQ 2000000] =
      with_heap [mkQ 4000000, mkQ 1000000, mkQ 2000000] :=
  ⟨by decide, (C2_strategy_equivalence _).2 (by decide)⟩

/-- C3: in both strategies, on insert of quote `q` a buffered quote is flushed
iff `accept_time + MAX_DELAY < q.accept_time` (MAX_DELAY = 3 seconds, strict
inequality) and retained iff not; in particular a quote exactly MAX_DELAY
behind is retained. -/
theorem C3_flush_boundary (w : List QuotePacket) (q : QuotePacket)
    (hw : SortedW w) :
    MAX_DELAY = 3000000 ∧
    (∀ e, e ∈ (vecFlush w q).1 ↔
      e ∈ w ∧ e.accept_time + MAX_DELAY < q.accept_time) ∧
    (∀ e, e ∈ (vecFlush w q).2 ↔
      e ∈ w ∧ ¬ e.accept_time + MAX_DELAY < q.accept_time) ∧
    (∀ e, e ∈ (heapFlush w q.accept_time).1 ↔
      e ∈ w ∧ e.accept_time + MAX_DELAY < q.accept_time) ∧
    (∀ e, e ∈ (heapFlush w q.accept_time).2 ↔
      e ∈ w ∧ ¬ e.accept_time + MAX_DELAY < q.accept_time) := by
  obtain ⟨hperm, hfst, hsnd, _, _⟩ := heapFlush_spec w q.accept_time
  refine ⟨rfl, ?_, ?_, ?_, ?_⟩
  · intro e
    rw [vecFlush_fst q hw, List.mem_filter]
    simp
  · intro e
    rw [vecFlush_snd q hw, List.mem_filter]
    simp
  · intro e
    constructor
    · intro he
      exact ⟨hperm.symm.subset (List.mem_append_left _ he), hfst e he⟩
    · rintro ⟨hew, hpred⟩
      rcases List.mem_append.mp (hperm.subset hew) with h | h
      · exact h
      · exact absurd hpred (hsnd e h)
  · intro e
    constructor
    · intro he
      exact ⟨hperm.symm.subset (List.mem_append_right _ he), hsnd e he⟩
    · rintro ⟨hew, hpred⟩
      rcases List.mem_append.mp (hperm.subset hew) with h | h
      · exact absurd (hfst e h) hpred
      · exact h

theorem C3_flush_boundary_witness :
    MAX_DELAY = 3000000 ∧
    (∀ e, e ∈ (vecFlush [mkQ 0, mkQ 3000000] (mkQ 6000000)).1 ↔
      e ∈ [mkQ 0, mkQ 3000000] ∧ e.accept_time + MAX_DELAY < (mkQ 6000000).accept_time) ∧
    (∀ e, e ∈ (vecFlush [mkQ 0, mkQ 3000000] (mkQ 6000000)).2 ↔
      e ∈ [mkQ 0, mkQ 3000000] ∧ ¬ e.accept_time + MAX_DELAY < (mkQ 6000000).accept_time) ∧
    (∀ e, e ∈ (heapFlush [mkQ 0, mkQ 3000000] (mkQ 6000000).accept_time).1 ↔
      e ∈ [mkQ 0, mkQ 3000000] ∧ e.accept_time + MAX_DELAY < (mkQ 6000000).accept_time) ∧
    (∀ e, e ∈ (heapFlush [mkQ 0, mkQ 3000000] (mkQ 6000000).accept_time).2 ↔
      e ∈ [mkQ 0, mkQ 3000000] ∧ ¬ e.accept_time + MAX_DELAY < (mkQ 6000000).accept_time) :=
  C3_flush_boundary [mkQ 0, mkQ 3000000] (mkQ 6000000) (by decide)

/-- C7: the ordered-sequence window is sorted by accept time at every point of
the run; an incoming quote is inserted after every buffered entry with
`accept_time <= q.accept_time` and before the strictly later ones; and with
equal accept times throughout, emission preserves arrival order exactly
(stability on ties). -/
theorem C7_insert_position_stable :
    (∀ qs : List QuotePacket, SortedW (vecWindow [] qs)) ∧
    (∀ (w : List QuotePacket) (q : QuotePacket), SortedW w →
      vecInsert w q =
        (w.filter fun e => decide (e.accept_time ≤ q.accept_time)) ++
          q :: (w.filter fun e => ! decide (e.accept_time ≤ q.accept_time))) ∧
    (∀ (qs : List QuotePacket) (c : Int), (∀ q ∈ qs, q.accept_time = c) →
      with_vec qs = qs) := by
  refine ⟨?_, ?_, ?_⟩
  · intro qs
    exact vecWindow_sorted qs [] List.Pairwise.nil
  · intro w q hw
    obtain ⟨ht, hd⟩ := @sorted_takeWhile_filter
      (fun e => decide (e.accept_time ≤ q.accept_time))
      (fun x y hxy hpy => by
        simp only [decide_eq_true_eq] at *
        omega) w hw
    unfold vecInsert
    rw [ht, hd]
  · intro qs c h
    have := vecRun_const_accept qs [] c (by simp) h
    simpa using this

theorem C7_insert_position_witness :
    SortedW (vecWindow [] [mkQ 3000000, mkQ 1000000]) ∧
    (vecInsert [mkQ 1, mkQ 5] (mkQ 3) =
      ([mkQ 1, mkQ 5].filter fun e => decide (e.accept_time ≤ (mkQ 3).accept_time)) ++
        mkQ 3 :: ([mkQ 1, mkQ 5].filter fun e =>
          ! decide (e.accept_time ≤ (mkQ 3).accept_time))) ∧
    with_vec [mkQ 7, mkQ 7] = [mkQ 7, mkQ 7] :=
  ⟨C7_insert_position_stable.1 _,
   C7_insert_position_stable.2.1 [mkQ 1, mkQ 5] (mkQ 3) (by decide),
   C7_insert_position_stable.2.2 [mkQ 7, mkQ 7] 7 (by decide)⟩

/-- C4: decoding a marker-bearing, well-formed payload yields exactly the
encoded field values, with `accept_time` equal to the packet's UTC calendar
day at the embedded HHMMSShh time of day (hundredths as milliseconds) in the
fixed UTC+9 offset, converted to UTC. -/
theorem C4_decode_round_trip (pt : Int) (issue : List Nat)
    (bp1 bq1 bp2 bq2 bp3 bq3 bp4 bq4 bp5 bq5
     ap1 aq1 ap2 aq2 ap3 aq3 ap4 aq4 ap5 aq5 hh mm ss cc : Nat)
    (h12 : issue.length = 12) (hascii : ∀ b ∈ issue, b < 128)
    (hbp1 : bp1 < 100000) (hbq1 : bq1 < 10000000) (hbp2 : bp2 < 100000)
    (hbq2 : bq2 < 10000000) (hbp3 : bp3 < 100000) (hbq3 : bq3 < 10000000)
    (hbp4 : bp4 < 100000) (hbq4 : bq4 < 10000000) (hbp5 : bp5 < 100000)
    (hbq5 : bq5 < 10000000) (hap1 : ap1 < 100000) (haq1 : aq1 < 10000000)
    (hap2 : ap2 < 100000) (haq2 : aq2 < 10000000) (hap3 : ap3 < 100000)
    (haq3 : aq3 < 10000000) (hap4 : ap4 < 100000) (haq4 : aq4 < 10000000)
    (hap5 : ap5 < 100000) (haq5 : aq5 < 10000000)
    (hhh : hh ≤ 23) (hmm : mm ≤ 59) (hss : ss ≤ 59) (hcc : cc ≤ 99) :
    try_from_udp_payload pt (mkPayload issue bp1 bq1 bp2 bq2 bp3 bq3 bp4 bq4
      bp5 bq5 ap1 aq1 ap2 aq2 ap3 aq3 ap4 aq4 ap5 aq5 hh mm ss cc) =
      dpure { packet_time := pt
              accept_time := (pt.fdiv microsPerDay * 86400000 +
                ((((hh * 60 + mm) * 60 + ss) * 1000 + cc * 10 : Nat) : Int)) * 1000 -
                32400000000
              issue_code := issue
              bid_price_1 := bp1, bid_price_2 := bp2, bid_price_3 := bp3
              bid_price_4 := bp4, bid_price_5 := bp5
              ask_price_1 := ap1, ask_price_2 := ap2, ask_price_3 := ap3
              ask_price_4 := ap4, ask_price_5 := ap5
              bid_quantity_1 := bq1, bid_quantity_2 := bq2, bid_quantity_3 := bq3
              bid_quantity_4 := bq4, bid_quantity_5 := bq5
              ask_quantity_1 := aq1, ask_quantity_2 := aq2, ask_quantity_3 := aq3
              ask_quantity_4 := aq4, ask_quantity_5 := aq5 } :=
  decode_mkPayload pt issue bp1 bq1 bp2 bq2 bp3 bq3 bp4 bq4 bp5 bq5
    ap1 aq1 ap2 aq2 ap3 aq3 ap4 aq4 ap5 aq5 hh mm ss cc h12 hascii
    hbp1 hbq1 hbp2 hbq2 hbp3 hbq3 hbp4 hbq4 hbp5 hbq5
    hap1 haq1 hap2 haq2 hap3 haq3 hap4 haq4 hap5 haq5 hhh hmm hss hcc

def exIssueAAPL : List Nat := [65, 65, 80, 76, 45, 45, 45, 45, 45, 45, 45, 45]

theorem C4_decode_round_trip_witness :
    try_from_udp_payload 0 (mkPayload exIssueAAPL 123 500 0 0 0 0 0 0 0 0
      0 0 0 0 0 0 0 0 0 0 9 30 12 34) =
      dpure { packet_time := 0, accept_time := 1812340000
              issue_code := exIssueAAPL
              bid_price_1 := 123, bid_price_2 := 0, bid_price_3 := 0
              bid_price_4 := 0, bid_price_5 := 0
              ask_price_1 := 0, ask_price_2 := 0, ask_price_3 := 0
              ask_price_4 := 0, ask_price_5 := 0
              bid_quantity_1 := 500, bid_quantity_2 := 0, bid_quantity_3 := 0
              bid_quantity_4 := 0, bid_quantity_5 := 0
              ask_quantity_1 := 0, ask_quantity_2 := 0, ask_quantity_3 := 0
              ask_quantity_4 := 0, ask_quantity_5 := 0 } := by
  have h := C4_decode_round_trip 0 exIssueAAPL 123 500 0 0 0 0 0 0 0 0
    0 0 0 0 0 0 0 0 0 0 9 30 12 34 (by decide) (by decide)
    (by decide) (by decide) (by decide) (by decide) (by decide) (by decide)
    (by decide) (by decide) (by decide) (by decide) (by decide) (by decide)
    (by decide) (by decide) (by decide) (by decide) (by decide) (by decide)
    (by decide) (by decide) (by decide) (by decide) (by decide) (by decide)
  rw [h]
  decide

def shortPayloadFrame : Frame :=
  { packetTimeMicros := some 0
    eth := some { ethertype := 2048
                  ipv4 := some { protocol := 17, udp := some { payload := [66] } } } }

/-- C5: evaluation at the failing input — a UDP frame whose payload is a
single byte is not this feed's traffic, yet `try_from_packet` panics in the
marker check `&udp_payload[..5]` instead of returning `None`. -/
theorem C5_short_payload_panics :
    try_from_packet shortPayloadFrame = POr.panicked := by decide

def multibyteIssuePayload : List Nat :=
  DATA_INFO_MARKET ++ [195, 169] ++ List.replicate 10 65 ++ List.replicate 198 48

/-- C10: evaluation at the failing input — a 215-byte marked payload whose
issue-code window is valid UTF-8 containing the two-byte character U+00E9:
`IssueCode::try_from` sees byte length 12, finds only 11 chars, and its
`chars.next().unwrap()` panics, so `try_from_udp_payload` is not total. -/
theorem C10_multibyte_issue_panics :
    214 ≤ multibyteIssuePayload.length ∧
    multibyteIssuePayload.take 5 = DATA_INFO_MARKET ∧
    (utf8Decode (window multibyteIssuePayload 5 12)).isSome = true ∧
    try_from_udp_payload 0 multibyteIssuePayload = dpanic := by decide

def lateAcceptPayload : List Nat :=
  mkPayload (List.replicate 12 65) 0 0 0 0 0 0 0 0 0 0 0 0 0 0 0 0 0 0 0 0
    10 0 0 0

def lateAcceptQuote : QuotePacket :=
  { packet_time := 0, accept_time := 3600000000
    issue_code := List.replicate 12 65
    bid_price_1 := 0, bid_price_2 := 0, bid_price_3 := 0, bid_price_4 := 0
    bid_price_5 := 0
    ask_price_1 := 0, ask_price_2 := 0, ask_price_3 := 0, ask_price_4 := 0
    ask_price_5 := 0
    bid_quantity_1 := 0, bid_quantity_2 := 0, bid_quantity_3 := 0
    bid_quantity_4 := 0, bid_quantity_5 := 0
    ask_quantity_1 := 0, ask_quantity_2 := 0, ask_quantity_3 := 0
    ask_quantity_4 := 0, ask_quantity_5 := 0 }

/-- C9 counterexample: a frame captured at 1970-01-01T00:00:00Z with accept
field "10000000" decodes successfully, but its accept time (01:00:00 UTC,
i.e. 10:00 UTC+9 on the capture day) does not precede the packet time, so
`debug_assert!(accept_time < packet_time)` does not hold on every `Ok`. -/
theorem C9_counterexample :
    try_from_udp_payload 0 lateAcceptPayload = dpure lateAcceptQuote ∧
    ¬ lateAcceptQuote.accept_time < lateAcceptQuote.packet_time := by decide

/-- C9 (amended): for a decode that succeeds, `accept_time < packet_time`
holds precisely when the embedded time of day, shifted by the UTC+9 offset,
is earlier than `packet_time`'s offset within its own UTC day; the asserted
inequality is not unconditional (and `debug_assert!` is compiled out in
release builds). -/
theorem C9_assert_characterised (pt : Int) (issue : List Nat)
    (bp1 bq1 bp2 bq2 bp3 bq3 bp4 bq4 bp5 bq5
     ap1 aq1 ap2 aq2 ap3 aq3 ap4 aq4 ap5 aq5 hh mm ss cc : Nat)
    (h12 : issue.length = 12) (hascii : ∀ b ∈ issue, b < 128)
    (hbp1 : bp1 < 100000) (hbq1 : bq1 < 10000000) (hbp2 : bp2 < 100000)
    (hbq2 : bq2 < 10000000) (hbp3 : bp3 < 100000) (hbq3 : bq3 < 10000000)
    (hbp4 : bp4 < 100000) (hbq4 : bq4 < 10000000) (hbp5 : bp5 < 100000)
    (hbq5 : bq5 < 10000000) (hap1 : ap1 < 100000) (haq1 : aq1 < 10000000)
    (hap2 : ap2 < 100000) (haq2 : aq2 < 10000000) (hap3 : ap3 < 100000)
    (haq3 : aq3 < 10000000) (hap4 : ap4 < 100000) (haq4 : aq4 < 10000000)
    (hap5 : ap5 < 100000) (haq5 : aq5 < 10000000)
    (hhh : hh ≤ 23) (hmm : mm ≤ 59) (hss : ss ≤ 59) (hcc : cc ≤ 99) :
    ∃ q, try_from_udp_payload pt (mkPayload issue bp1 bq1 bp2 bq2 bp3 bq3
        bp4 bq4 bp5 bq5 ap1 aq1 ap2 aq2 ap3 aq3 ap4 aq4 ap5 aq5
        hh mm ss cc) = dpure q ∧
      (q.accept_time < q.packet_time ↔
        ((((hh * 60 + mm) * 60 + ss) * 1000 + cc * 10 : Nat) : Int) * 1000 -
            32400000000 <
          pt - pt.fdiv microsPerDay * 86400000000) := by
  refine ⟨_, decode_mkPayload pt issue bp1 bq1 bp2 bq2 bp3 bq3 bp4 bq4 bp5 bq5
    ap1 aq1 ap2 aq2 ap3 aq3 ap4 aq4 ap5 aq5 hh mm ss cc h12 hascii
    hbp1 hbq1 hbp2 hbq2 hbp3 hbq3 hbp4 hbq4 hbp5 hbq5
    hap1 haq1 hap2 haq2 hap3 haq3 hap4 haq4 hap5 haq5 hhh hmm hss hcc, ?_⟩
  dsimp only
  constructor <;> intro h <;> omega

theorem C9_assert_characterised_witness :
    ∃ q, try_from_udp_payload 0 (mkPayload exIssueAAPL 0 0 0 0 0 0 0 0 0 0
        0 0 0 0 0 0 0 0 0 0 10 0 0 0) = dpure q ∧
      (q.accept_time < q.packet_time ↔
        ((((10 * 60 + 0) * 60 + 0) * 1000 + 0 * 10 : Nat) : Int) * 1000 -
            32400000000 <
          0 - Int.fdiv 0 microsPerDay * 86400000000) :=
  C9_assert_characterised 0 exIssueAAPL 0 0 0 0 0 0 0 0 0 0
    0 0 0 0 0 0 0 0 0 0 10 0 0 0 (by decide) (by decide)
    (by decide) (by decide) (by decide) (by decide) (by decide) (by decide)
    (by decide) (by decide) (by decide) (by decide) (by decide) (by decide)
    (by decide) (by decide) (by decide) (by decide) (by decide) (by decide)
    (by decide) (by decide) (by decide) (by decide) (by decide) (by decide)

/-- C8: one emitted line, for any timestamp renderer: the two timestamps, the
issue code, then the ten quantity@price fields in the fixed order bid level
5,4,3,2,1 then ask level 1,2,3,4,5, each quantity right-aligned and each
price left-aligned to the same minimum width of 6. -/
theorem C8_display_line (tr : Int → List Nat) (q : QuotePacket) :
    display tr q =
      tr q.packet_time ++ [32] ++ tr q.accept_time ++ [32] ++ q.issue_code ++
      ([32] ++ padLeftTo 6 (natDecimal q.bid_quantity_5) ++ [64] ++
        padRightTo 6 (natDecimal q.bid_price_5)) ++
      ([32] ++ padLeftTo 6 (natDecimal q.bid_quantity_4) ++ [64] ++
        padRightTo 6 (natDecimal q.bid_price_4)) ++
      ([32] ++ padLeftTo 6 (natDecimal q.bid_quantity_3) ++ [64] ++
        padRightTo 6 (natDecimal q.bid_price_3)) ++
      ([32] ++ padLeftTo 6 (natDecimal q.bid_quantity_2) ++ [64] ++
        padRightTo 6 (natDecimal q.bid_price_2)) ++
      ([32] ++ padLeftTo 6 (natDecimal q.bid_quantity_1) ++ [64] ++
        padRightTo 6 (natDecimal q.bid_price_1)) ++
      ([32] ++ padLeftTo 6 (natDecimal q.ask_quantity_1) ++ [64] ++
        padRightTo 6 (natDecimal q.ask_price_1)) ++
      ([32] ++ padLeftTo 6 (natDecimal q.ask_quantity_2) ++ [64] ++
        padRightTo 6 (natDecimal q.ask_price_2)) ++
      ([32] ++ padLeftTo 6 (natDecimal q.ask_quantity_3) ++ [64] ++
        padRightTo 6 (natDecimal q.ask_price_3)) ++
      ([32] ++ padLeftTo 6 (natDecimal q.ask_quantity_4) ++ [64] ++
        padRightTo 6 (natDecimal q.ask_price_4)) ++
      ([32] ++ padLeftTo 6 (natDecimal q.ask_quantity_5) ++ [64] ++
        padRightTo 6 (natDecimal q.ask_price_5)) := by
  simp [display, displayPairs, List.append_assoc]

def plusPricePayload : List Nat :=
  DATA_INFO_MARKET ++ List.replicate 12 65 ++ List.replicate 12 32 ++
  [43, 48, 49, 50, 51] ++ natToDigits 7 500 ++
  natToDigits 5 0 ++ natToDigits 7 0 ++ natToDigits 5 0 ++ natToDigits 7 0 ++
  natToDigits 5 0 ++ natToDigits 7 0 ++ natToDigits 5 0 ++ natToDigits 7 0 ++
  List.replicate 7 32 ++
  natToDigits 5 0 ++ natToDigits 7 0 ++ natToDigits 5 0 ++ natToDigits 7 0 ++
  natToDigits 5 0 ++ natToDigits 7 0 ++ natToDigits 5 0 ++ natToDigits 7 0 ++
  natToDigits 5 0 ++ natToDigits 7 0 ++
  List.replicate 50 32 ++
  natToDigits 2 9 ++ natToDigits 2 30 ++ natToDigits 2 12 ++ natToDigits 2 34 ++
  [255]

def plusPriceQuote : QuotePacket :=
  { packet_time := 0, accept_time := 1812340000
    issue_code := List.replicate 12 65
    bid_price_1 := 123, bid_price_2 := 0, bid_price_3 := 0, bid_price_4 := 0
    bid_price_5 := 0
    ask_price_1 := 0, ask_price_2 := 0, ask_price_3 := 0, ask_price_4 := 0
    ask_price_5 := 0
    bid_quantity_1 := 500, bid_quantity_2 := 0, bid_quantity_3 := 0
    bid_quantity_4 := 0, bid_quantity_5 := 0
    ask_quantity_1 := 0, ask_quantity_2 := 0, ask_quantity_3 := 0
    ask_quantity_4 := 0, ask_quantity_5 := 0 }

/-- C6 counterexample: the first price window of this marked, full-length
payload is "+0123", whose first byte 43 ('+') is not a decimal digit, yet the
payload decodes successfully with `bid_price_1 = 123`: `u32::from_str_radix`
accepts one leading '+' even for unsigned types, so a non-digit byte in a
fixed-width numeric field does not always yield `Some(Err(_))`. -/
theorem C6_counterexample :
    window plusPricePayload 29 5 = [43, 48, 49, 50, 51] ∧
    try_from_udp_payload 0 plusPricePayload = dpure plusPriceQuote ∧
    plusPriceQuote.bid_price_1 = 123 := by decide

/-- C6 (amended): a marked, full-length payload that fails decoding in the
claim's failure modes yields `Some(Err(_))` — once the tolerated leading '+'
of `u32::from_str_radix` and the panicking multi-byte issue-code path (C10)
are set aside: (1) an issue window that is not valid UTF-8 fails with
`UTF8_ERROR`; (2) with a plain-ASCII issue window, a first-price window that
is not valid UTF-8 fails with `UTF8_ERROR`; (3) a first-price window of valid
ASCII text that is not an unsigned decimal (junk bytes, empty digits, or
overflow, `parseU32` returning `none`) fails with `PARSE_INT_ERROR`; (4) an
encoder-built payload whose hour field is 24 or more fails the time-of-day
validation with `DATE_ERROR` after every numeric field parses.  Erroneous
frames reach `with_vec`/`with_heap` only as `Some(Err(_))`, which both
strategies skip. -/
theorem C6_malformed_rejection (pt : Int) :
    (∀ p : List Nat, 214 ≤ p.length → utf8Decode (window p 5 12) = none →
      try_from_udp_payload pt p = dthrow UTF8_ERROR) ∧
    (∀ p : List Nat, 214 ≤ p.length → (∀ b ∈ window p 5 12, b < 128) →
      utf8Decode (window p 29 5) = none →
      try_from_udp_payload pt p = dthrow UTF8_ERROR) ∧
    (∀ p : List Nat, 214 ≤ p.length → (∀ b ∈ window p 5 12, b < 128) →
      (∀ b ∈ window p 29 5, b < 128) → parseU32 (window p 29 5) = none →
      try_from_udp_payload pt p = dthrow PARSE_INT_ERROR) ∧
    (∀ (issue : List Nat) (hh mm ss cc : Nat), issue.length = 12 →
      (∀ b ∈ issue, b < 128) → 24 ≤ hh → hh ≤ 99 → mm ≤ 99 → ss ≤ 99 →
      cc ≤ 99 →
      try_from_udp_payload pt (mkPayload issue 0 0 0 0 0 0 0 0 0 0 0 0 0 0 0 0 0 0 0 0 hh mm ss cc) =
        dthrow DATE_ERROR) := by
  refine ⟨?_, ?_, ?_, ?_⟩
  · intro p hlen hbad
    have hsl : ∀ s l : Nat, s + l ≤ 214 → sliceBytes p s l = dpure (window p s l) := by
      intro s l h
      unfold sliceBytes window
      rw [if_pos (by omega)]
    have hf : from_utf8 (window p 5 12) = dthrow UTF8_ERROR := by
      simp [from_utf8, hbad]
    unfold try_from_udp_payload
    simp only [bind_eq_dbind, hsl 5 12 (by norm_num), dbind_dpure, hf, dbind_dthrow]
  · intro p hlen hascii hbad
    have hsl : ∀ s l : Nat, s + l ≤ 214 → sliceBytes p s l = dpure (window p s l) := by
      intro s l h
      unfold sliceBytes window
      rw [if_pos (by omega)]
    have h12w : (window p 5 12).length = 12 := window_length (by omega)
    have hf29 : from_utf8 (window p 29 5) = dthrow UTF8_ERROR := by
      simp [from_utf8, hbad]
    unfold try_from_udp_payload
    simp only [bind_eq_dbind, hsl 5 12 (by norm_num), hsl 29 5 (by norm_num),
      from_utf8_ascii hascii, issueCode_ascii h12w hascii, dbind_dpure,
      hf29, dbind_dthrow]
  · intro p hlen hascii hascii29 hbad
    have hsl : ∀ s l : Nat, s + l ≤ 214 → sliceBytes p s l = dpure (window p s l) := by
      intro s l h
      unfold sliceBytes window
      rw [if_pos (by omega)]
    have h12w : (window p 5 12).length = 12 := window_length (by omega)
    have hp29 : parse_u32 (window p 29 5) = dthrow PARSE_INT_ERROR := by
      simp [parse_u32, hbad]
    unfold try_from_udp_payload
    simp only [bind_eq_dbind, hsl 5 12 (by norm_num), hsl 29 5 (by norm_num),
      from_utf8_ascii hascii, issueCode_ascii h12w hascii,
      from_utf8_ascii hascii29, dbind_dpure, hp29, dbind_dthrow]
  · intro issue hh mm ss cc h12 hascii hhh24 hhh hmm hss hcc
    have e5 : sliceBytes (mkPayload issue 0 0 0 0 0 0 0 0 0 0 0 0 0 0 0 0 0 0 0 0 hh mm ss cc) 5 12 = dpure issue := by
      simp [mkPayload, DATA_INFO_MARKET_length, sliceBytes_append_skip, sliceBytes_cons_skip, sliceBytes_prefix, natToDigits_length, h12]
    have e29 : sliceBytes (mkPayload issue 0 0 0 0 0 0 0 0 0 0 0 0 0 0 0 0 0 0 0 0 hh mm ss cc) 29 5 = dpure (natToDigits 5 0) := by
      simp [mkPayload, DATA_INFO_MARKET_length, sliceBytes_append_skip, sliceBytes_cons_skip, sliceBytes_prefix, natToDigits_length, h12]
    have e34 : sliceBytes (mkPayload issue 0 0 0 0 0 0 0 0 0 0 0 0 0 0 0 0 0 0 0 0 hh mm ss cc) 34 7 = dpure (natToDigits 7 0) := by
      simp [mkPayload, DATA_INFO_MARKET_length, sliceBytes_append_skip, sliceBytes_cons_skip, sliceBytes_prefix, natToDigits_length, h12]
    have e41 : sliceBytes (mkPayload issue 0 0 0 0 0 0 0 0 0 0 0 0 0 0 0 0 0 0 0 0 hh mm ss cc) 41 5 = dpure (natToDigits 5 0) := by
      simp [mkPayload, DATA_INFO_MARKET_length, sliceBytes_append_skip, sliceBytes_cons_skip, sliceBytes_prefix, natToDigits_length, h12]
    have e46 : sliceBytes (mkPayload issue 0 0 0 0 0 0 0 0 0 0 0 0 0 0 0 0 0 0 0 0 hh mm ss cc) 46 7 = dpure (natToDigits 7 0) := by
      simp [mkPayload, DATA_INFO_MARKET_length, sliceBytes_append_skip, sliceBytes_cons_skip, sliceBytes_prefix, natToDigits_length, h12]
    have e53 : sliceBytes (mkPayload issue 0 0 0 0 0 0 0 0 0 0 0 0 0 0 0 0 0 0 0 0 hh mm ss cc) 53 5 = dpure (natToDigits 5 0) := by
      simp [mkPayload, DATA_INFO_MARKET_length, sliceBytes_append_skip, sliceBytes_cons_skip, sliceBytes_prefix, natToDigits_length, h12]
    have e58 : sliceBytes (mkPayload issue 0 0 0 0 0 0 0 0 0 0 0 0 0 0 0 0 0 0 0 0 hh mm ss cc) 58 7 = dpure (natToDigits 7 0) := by
      simp [mkPayload, DATA_INFO_MARKET_length, sliceBytes_append_skip, sliceBytes_cons_skip, sliceBytes_prefix, natToDigits_length, h12]
    have e65 : sliceBytes (mkPayload issue 0 0 0 0 0 0 0 0 0 0 0 0 0 0 0 0 0 0 0 0 hh mm ss cc) 65 5 = dpure (natToDigits 5 0) := by
      simp [mkPayload, DATA_INFO_MARKET_length, sliceBytes_append_skip, sliceBytes_cons_skip, sliceBytes_prefix, natToDigits_length, h12]
    have e70 : sliceBytes (mkPayload issue 0 0 0 0 0 0 0 0 0 0 0 0 0 0 0 0 0 0 0 0 hh mm ss cc) 70 7 = dpure (natToDigits 7 0) := by
      simp [mkPayload, DATA_INFO_MARKET_length, sliceBytes_append_skip, sliceBytes_cons_skip, sliceBytes_prefix, natToDigits_length, h12]
    have e77 : sliceBytes (mkPayload issue 0 0 0 0 0 0 0 0 0 0 0 0 0 0 0 0 0 0 0 0 hh mm ss cc) 77 5 = dpure (natToDigits 5 0) := by
      simp [mkPayload, DATA_INFO_MARKET_length, sliceBytes_append_skip, sliceBytes_cons_skip, sliceBytes_prefix, natToDigits_length, h12]
    have e82 : sliceBytes (mkPayload issue 0 0 0 0 0 0 0 0 0 0 0 0 0 0 0 0 0 0 0 0 hh mm ss cc) 82 7 = dpure (natToDigits 7 0) := by
      simp [mkPayload, DATA_INFO_MARKET_length, sliceBytes_append_skip, sliceBytes_cons_skip, sliceBytes_prefix, natToDigits_length, h12]
    have e96 : sliceBytes (mkPayload issue 0 0 0 0 0 0 0 0 0 0 0 0 0 0 0 0 0 0 0 0 hh mm ss cc) 96 5 = dpure (natToDigits 5 0) := by
      simp [mkPayload, DATA_INFO_MARKET_length, sliceBytes_append_skip, sliceBytes_cons_skip, sliceBytes_prefix, natToDigits_length, h12]
    have e101 : sliceBytes (mkPayload issue 0 0 0 0 0 0 0 0 0 0 0 0 0 0 0 0 0 0 0 0 hh mm ss cc) 101 7 = dpure (natToDigits 7 0) := by
      simp [mkPayload, DATA_INFO_MARKET_length, sliceBytes_append_skip, sliceBytes_cons_skip, sliceBytes_prefix, natToDigits_length, h12]
    have e108 : sliceBytes (mkPayload issue 0 0 0 0 0 0 0 0 0 0 0 0 0 0 0 0 0 0 0 0 hh mm ss cc) 108 5 = dpure (natToDigits 5 0) := by
      simp [mkPayload, DATA_INFO_MARKET_length, sliceBytes_append_skip, sliceBytes_cons_skip, sliceBytes_prefix, natToDigits_length, h12]
    have e113 : sliceBytes (mkPayload issue 0 0 0 0 0 0 0 0 0 0 0 0 0 0 0 0 0 0 0 0 hh mm ss cc) 113 7 = dpure (natToDigits 7 0) := by
      simp [mkPayload, DATA_INFO_MARKET_length, sliceBytes_append_skip, sliceBytes_cons_skip, sliceBytes_prefix, natToDigits_length, h12]
    have e120 : sliceBytes (mkPayload issue 0 0 0 0 0 0 0 0 0 0 0 0 0 0 0 0 0 0 0 0 hh mm ss cc) 120 5 = dpure (natToDigits 5 0) := by
      simp [mkPayload, DATA_INFO_MARKET_length, sliceBytes_append_skip, sliceBytes_cons_skip, sliceBytes_prefix, natToDigits_length, h12]
    have e125 : sliceBytes (mkPayload issue 0 0 0 0 0 0 0 0 0 0 0 0 0 0 0 0 0 0 0 0 hh mm ss cc) 125 7 = dpure (natToDigits 7 0) := by
      simp [mkPayload, DATA_INFO_MARKET_length, sliceBytes_append_skip, sliceBytes_cons_skip, sliceBytes_prefix, natToDigits_length, h12]
    have e132 : sliceBytes (mkPayload issue 0 0 0 0 0 0 0 0 0 0 0 0 0 0 0 0 0 0 0 0 hh mm ss cc) 132 5 = dpure (natToDigits 5 0) := by
      simp [mkPayload, DATA_INFO_MARKET_length, sliceBytes_append_skip, sliceBytes_cons_skip, sliceBytes_prefix, natToDigits_length, h12]
    have e137 : sliceBytes (mkPayload issue 0 0 0 0 0 0 0 0 0 0 0 0 0 0 0 0 0 0 0 0 hh mm ss cc) 137 7 = dpure (natToDigits 7 0) := by
      simp [mkPayload, DATA_INFO_MARKET_length, sliceBytes_append_skip, sliceBytes_cons_skip, sliceBytes_prefix, natToDigits_length, h12]
    have e144 : sliceBytes (mkPayload issue 0 0 0 0 0 0 0 0 0 0 0 0 0 0 0 0 0 0 0 0 hh mm ss cc) 144 5 = dpure (natToDigits 5 0) := by
      simp [mkPayload, DATA_INFO_MARKET_length, sliceBytes_append_skip, sliceBytes_cons_skip, sliceBytes_prefix, natToDigits_length, h12]
    have e149 : sliceBytes (mkPayload issue 0 0 0 0 0 0 0 0 0 0 0 0 0 0 0 0 0 0 0 0 hh mm ss cc) 149 7 = dpure (natToDigits 7 0) := by
      simp [mkPayload, DATA_INFO_MARKET_length, sliceBytes_append_skip, sliceBytes_cons_skip, sliceBytes_prefix, natToDigits_length, h12]
    have e206 : sliceBytes (mkPayload issue 0 0 0 0 0 0 0 0 0 0 0 0 0 0 0 0 0 0 0 0 hh mm ss cc) 206 8 =
        dpure (natToDigits 2 hh ++ (natToDigits 2 mm ++ (natToDigits 2 ss ++ natToDigits 2 cc))) := by
      simp [mkPayload, DATA_INFO_MARKET_length, sliceBytes_append_skip, sliceBytes_cons_skip, sliceBytes_take, natToDigits_length, h12,
        List.take_append_eq_append_take, List.take_of_length_le]
    have hacc_ascii : ∀ b ∈ natToDigits 2 hh ++ (natToDigits 2 mm ++ (natToDigits 2 ss ++ natToDigits 2 cc)), b < 128 := by
      intro b hb
      simp only [List.mem_append] at hb
      rcases hb with hb | hb | hb | hb <;> exact natToDigits_ascii _ _ b hb
    have hacc_utf8 := from_utf8_ascii hacc_ascii
    have hacc_len : (natToDigits 2 hh ++ (natToDigits 2 mm ++ (natToDigits 2 ss ++ natToDigits 2 cc))).length = 8 := by
      simp [natToDigits_length]
    have hs0 : strSlice (natToDigits 2 hh ++ (natToDigits 2 mm ++ (natToDigits 2 ss ++ natToDigits 2 cc))) 0 2 = dpure (natToDigits 2 hh) := by
      rw [strSlice_ascii hacc_ascii (by omega) (by omega)]
      simp [List.take_append_eq_append_take, List.take_of_length_le, natToDigits_length]
    have hs2 : strSlice (natToDigits 2 hh ++ (natToDigits 2 mm ++ (natToDigits 2 ss ++ natToDigits 2 cc))) 2 4 = dpure (natToDigits 2 mm) := by
      rw [strSlice_ascii hacc_ascii (by omega) (by omega)]
      simp [List.drop_append_eq_append_drop, List.take_append_eq_append_take,
        List.drop_eq_nil_of_le, List.take_of_length_le, natToDigits_length]
    have hs4 : strSlice (natToDigits 2 hh ++ (natToDigits 2 mm ++ (natToDigits 2 ss ++ natToDigits 2 cc))) 4 6 = dpure (natToDigits 2 ss) := by
      rw [strSlice_ascii hacc_ascii (by omega) (by omega)]
      simp [List.drop_append_eq_append_drop, List.take_append_eq_append_take,
        List.drop_eq_nil_of_le, List.take_of_length_le, natToDigits_length]
    have hs6 : strSlice (natToDigits 2 hh ++ (natToDigits 2 mm ++ (natToDigits 2 ss ++ natToDigits 2 cc))) 6 8 = dpure (natToDigits 2 cc) := by
      rw [strSlice_ascii hacc_ascii (by omega) (by omega)]
      simp [List.drop_append_eq_append_drop, List.take_append_eq_append_take,
        List.drop_eq_nil_of_le, List.take_of_length_le, natToDigits_length]
    have hp_hh : parse_u32 (natToDigits 2 hh) = dpure hh :=
      parse_u32_digits 2 hh (by norm_num) (by omega) (by norm_num)
    have hp_mm : parse_u32 (natToDigits 2 mm) = dpure mm :=
      parse_u32_digits 2 mm (by norm_num) (by omega) (by norm_num)
    have hp_ss : parse_u32 (natToDigits 2 ss) = dpure ss :=
      parse_u32_digits 2 ss (by norm_num) (by omega) (by norm_num)
    have hp_cc : parse_u32 (natToDigits 2 cc) = dpure cc :=
      parse_u32_digits 2 cc (by norm_num) (by omega) (by norm_num)
    have hz5 : parse_u32 (natToDigits 5 0) = dpure 0 :=
      parse_u32_digits 5 0 (by norm_num) (by norm_num) (by norm_num)
    have hz7 : parse_u32 (natToDigits 7 0) = dpure 0 :=
      parse_u32_digits 7 0 (by norm_num) (by norm_num) (by norm_num)
    have hissue_utf8 : from_utf8 issue = dpure issue := from_utf8_ascii hascii
    have hissue_code : issueCode_try_from issue = dpure issue := issueCode_ascii h12 hascii
    have h_hms_none : and_hms_milli_opt hh mm ss (cc * 10) = none := by
      unfold and_hms_milli_opt
      rw [if_neg (by omega)]
    have hk : fixedOffset_east_opt (9 * 60 * 60) = some 32400 := rfl
    unfold try_from_udp_payload
    simp only [bind_eq_dbind, e5, e29, e34, e41, e46, e53, e58, e65, e70, e77, e82, e96, e101, e108, e113, e120, e125, e132, e137, e144, e149, e206,
      dbind_dpure, from_utf8_digits, hissue_utf8, hissue_code, hacc_utf8,
      hs0, hs2, hs4, hs6, hp_hh, hp_mm, hp_ss, hp_cc, hz5, hz7,
      hk, h_hms_none, dbind_dthrow]

theorem C6_malformed_rejection_witness :
    214 ≤ (List.replicate 214 255 : List Nat).length ∧
    utf8Decode (window (List.replicate 214 255) 5 12) = none ∧
    try_from_udp_payload 0 (List.replicate 214 255) = dthrow UTF8_ERROR ∧
    try_from_udp_payload 0 (mkPayload (List.replicate 12 65) 0 0 0 0 0 0 0 0 0 0
      0 0 0 0 0 0 0 0 0 0 25 0 0 0) = dthrow DATE_ERROR := by
  refine ⟨by decide, by decide, ?_, ?_⟩
  · exact (C6_malformed_rejection 0).1 (List.replicate 214 255) (by decide) (by decide)
  · exact (C6_malformed_rejection 0).2.2.2 (List.replicate 12 65) 25 0 0 0
      (by decide) (by decide) (by decide) (by decide) (by decide) (by decide)
      (by decide)
